import Mathlib

/-!
# Conversation session manager of the emulator editor

A shallow embedding of `packages/app/client/src/ui/editor/emulator/index.tsx`
(class `Emulator`): the decision whether a conversation has to be started, the
start sequence itself, the transcript feeder and the export handler.

Side effects are made explicit: every method returns the list of effects it
performs, in program order.  Values produced by collaborators that are not part
of the component (the unique token, the freshly constructed objects, the
outcome of the remote calls) are inputs of the model.
-/

namespace Emulator

/-! ## Data model -/

/-- The type `EmulatorMode = 'transcript' | 'livechat'`. -/
inductive EmulatorMode
  | transcript
  | livechat
  deriving DecidableEq, Repr

/-- The string a mode value is. -/
def EmulatorMode.toString : EmulatorMode → String
  | .transcript => "transcript"
  | .livechat => "livechat"

/-- An activity carried inline by a deep-linked transcript document. -/
structure Activity where
  id : String
  deriving DecidableEq, Repr

/-- A transport object (`BotChat.DirectLine`): its identity and the conversation
id it currently reports. -/
structure DirectLine where
  handle : Nat
  conversationId : Option String
  deriving DecidableEq, Repr

/-- An rxjs `Subscription`, known by its identity. -/
structure Subscription where
  handle : Nat
  deriving DecidableEq, Repr

/-- An rxjs `BehaviorSubject`, known by its identity. -/
structure Subject where
  handle : Nat
  deriving DecidableEq, Repr

/-- The store made by `BotChat.createStore()`, known by its identity. -/
structure WebChatStore where
  handle : Nat
  deriving DecidableEq, Repr

/-- The per-document chat record (`state.chat.chats[documentId]`), with the
fields the session logic reads.  `deepLink` holds the truthiness of the flag;
an optional field is `none` when it is `undefined`. -/
structure Document where
  documentId : String
  conversationId : Option String
  endpointId : Option String
  directLine : Option DirectLine
  subscription : Option Subscription
  deepLink : Bool
  activities : Option (List Activity)
  deriving DecidableEq, Repr

/-- The props of the component (`IEmulatorProps` merged with the own props
`documentId` and `mode` by `connect`). -/
structure Props where
  conversationId : Option String
  document : Document
  documentId : String
  endpointId : Option String
  mode : Option EmulatorMode
  deriving DecidableEq, Repr

/-- The record `initConversation` hands to `ChatActions.newConversation`. -/
structure ConversationRecord where
  conversationId : String
  webChatStore : WebChatStore
  directLine : DirectLine
  selectedActivity : Subject
  subscription : Subscription
  deriving DecidableEq, Repr

/-- The chat actions the component creates. -/
inductive ChatAction
  | clearLog (documentId : String)
  | setInspectorObjects (documentId : String) (objs : List Activity)
  | newConversation (documentId : String) (record : ConversationRecord)
  | pingDocument (documentId : String)
  deriving DecidableEq, Repr

/-! ## Deciding whether a conversation must be started -/

/-- Resolution of `props = props || this.props`. -/
def resolveProps (thisProps : Props) (arg : Option Props) : Props :=
  arg.getD thisProps

/-- The method `shouldStartNewConversation(props?)`:
`!props.document.directLine ||
 (props.document.conversationId != props.document.directLine.conversationId)`. -/
def shouldStartNewConversation (thisProps : Props) (arg : Option Props) : Bool :=
  let props := resolveProps thisProps arg
  match props.document.directLine with
  | none => true
  | some dl => props.document.conversationId != dl.conversationId

/-- What a lifecycle method does directly: it invokes `startNewConversation`
with an argument, or dispatches an action to the store. -/
inductive Call
  | startNewConversation (arg : Option Props)
  | storeDispatch (a : ChatAction)
  deriving DecidableEq, Repr

/-- The method `componentWillMount()`. -/
def componentWillMount (thisProps : Props) : List Call :=
  if shouldStartNewConversation thisProps none then [Call.startNewConversation none] else []

/-- The method `componentWillReceiveProps(nextProps, nextContext)`: the
one-pass `for (;;)` leaves through `break` when the next document has a
transport or the document id is unchanged, and otherwise invokes
`startNewConversation(nextProps)`; then the ping is dispatched when the
document id changed. -/
def componentWillReceiveProps (thisProps nextProps : Props) : List Call :=
  (if nextProps.document.directLine.isSome
        || thisProps.document.documentId == nextProps.document.documentId then
      []
    else
      [Call.startNewConversation (some nextProps)])
  ++
  (if thisProps.document.documentId != nextProps.document.documentId then
      [Call.storeDispatch (ChatAction.pingDocument nextProps.document.documentId)]
    else
      [])

/-- The arguments of the `startNewConversation` invocations among some calls. -/
def startCalls : List Call → List (Option Props)
  | [] => []
  | Call.startNewConversation arg :: cs => arg :: startCalls cs
  | Call.storeDispatch _ :: cs => startCalls cs

/-! ## Sample values -/

/-- A document without a transport session. -/
def sampleDocument (documentId : String) : Document :=
  { documentId := documentId, conversationId := none, endpointId := none,
    directLine := none, subscription := none, deepLink := false, activities := none }

/-- Props over `sampleDocument`. -/
def sampleProps (documentId : String) (mode : Option EmulatorMode) : Props :=
  { conversationId := none, document := sampleDocument documentId,
    documentId := documentId, endpointId := none, mode := mode }

/-- Props whose document holds a subscription and a transport whose
conversation id is the document's. -/
def liveProps (documentId : String) (mode : Option EmulatorMode) : Props :=
  { conversationId := some "c0|livechat",
    document :=
      { documentId := documentId, conversationId := some "c0|livechat", endpointId := some "e1",
        directLine := some { handle := 1, conversationId := some "c0|livechat" },
        subscription := some { handle := 2 }, deepLink := false, activities := none },
    documentId := documentId, endpointId := some "e1", mode := mode }

/-! ## Session token: `encode(JSON.stringify(options))` -/

namespace Buffer

/-- Modelled from the spec: the UTF-8 bytes of one character, as `Buffer.from(text, "utf8")`
of the runtime library writes them (the token is a serialized text, URL-safe-base64 encoded). -/
def utf8EncodeChar (c : Char) : List Nat :=
  let n := c.toNat
  if n < 128 then [n]
  else if n < 2048 then [192 + n / 64, 128 + n % 64]
  else if n < 65536 then [224 + n / 4096, 128 + n / 64 % 64, 128 + n % 64]
  else [240 + n / 262144, 128 + n / 4096 % 64, 128 + n / 64 % 64, 128 + n % 64]

/-- Modelled from the spec: `Buffer.from(text, "utf8")` of the runtime library. -/
def fromUtf8 : List Char → List Nat
  | [] => []
  | c :: cs => utf8EncodeChar c ++ fromUtf8 cs

/-- Modelled from the spec: whether a byte is a UTF-8 continuation byte. -/
def isContinuation (b : Nat) : Bool := 128 ≤ b && b < 192

/-- Modelled from the spec: reading one UTF-8 sequence off the front of a byte
list (overlong forms, surrogates and values past U+10FFFF are refused). -/
def utf8DecodeChar : List Nat → Option (Char × List Nat)
  | [] => none
  | b0 :: rest =>
    if b0 < 128 then some (Char.ofNat b0, rest)
    else if b0 < 192 then none
    else if b0 < 224 then
      match rest with
      | b1 :: rest1 =>
        let n := (b0 - 192) * 64 + (b1 - 128)
        if isContinuation b1 && 128 ≤ n then some (Char.ofNat n, rest1) else none
      | _ => none
    else if b0 < 240 then
      match rest with
      | b1 :: b2 :: rest2 =>
        let n := (b0 - 224) * 4096 + (b1 - 128) * 64 + (b2 - 128)
        if isContinuation b1 && isContinuation b2 && 2048 ≤ n
            && !(55296 ≤ n && n < 57344) then
          some (Char.ofNat n, rest2)
        else none
      | _ => none
    else if b0 < 248 then
      match rest with
      | b1 :: b2 :: b3 :: rest3 =>
        let n := (b0 - 240) * 262144 + (b1 - 128) * 4096 + (b2 - 128) * 64 + (b3 - 128)
        if isContinuation b1 && isContinuation b2 && isContinuation b3
            && 65536 ≤ n && n < 1114112 then
          some (Char.ofNat n, rest3)
        else none
      | _ => none
    else none

/-- Modelled from the spec: the loop of the UTF-8 decoding; every round consumes
at least one byte, so a fuel of the length of the input is never exhausted. -/
def toStringUtf8Loop : Nat → List Nat → Option (List Char)
  | _, [] => some []
  | 0, _ :: _ => none
  | fuel + 1, b :: bs =>
    match utf8DecodeChar (b :: bs) with
    | none => none
    | some (c, rest) =>
      match toStringUtf8Loop fuel rest with
      | none => none
      | some cs => some (c :: cs)

/-- Modelled from the spec: `buffer.toString("utf8")` of the runtime library, on
well-formed input; malformed input gives `none`. -/
def toStringUtf8 (bytes : List Nat) : Option (List Char) :=
  toStringUtf8Loop bytes.length bytes

/-- Modelled from the spec: the base64 alphabet `A-Z a-z 0-9 + /`. -/
def base64Char (n : Nat) : Char :=
  if n < 26 then Char.ofNat (65 + n)
  else if n < 52 then Char.ofNat (71 + n)
  else if n < 62 then Char.ofNat (n - 4)
  else if n = 62 then Char.ofNat 43
  else Char.ofNat 47

/-- Modelled from the spec: the base64 padding character `=`. -/
def padChar : Char := Char.ofNat 61

/-- Modelled from the spec: `buffer.toString("base64")` of the runtime library. -/
def toStringBase64 : List Nat → List Char
  | [] => []
  | [a] => [base64Char (a / 4), base64Char (a % 4 * 16), padChar, padChar]
  | [a, b] =>
    [base64Char (a / 4), base64Char (a % 4 * 16 + b / 16), base64Char (b % 16 * 4), padChar]
  | a :: b :: c :: rest =>
    base64Char (a / 4) :: base64Char (a % 4 * 16 + b / 16)
      :: base64Char (b % 16 * 4 + c / 64) :: base64Char (c % 64) :: toStringBase64 rest

/-- Modelled from the spec: the value of a character of the base64 alphabet. -/
def base64Value (c : Char) : Option Nat :=
  let n := c.toNat
  if 65 ≤ n && n ≤ 90 then some (n - 65)
  else if 97 ≤ n && n ≤ 122 then some (n - 71)
  else if 48 ≤ n && n ≤ 57 then some (n + 4)
  else if n = 43 then some 62
  else if n = 47 then some 63
  else none

/-- Modelled from the spec: `Buffer.from(text, "base64")` of the runtime library,
on well-formed padded input; other input gives `none`. -/
def fromBase64 : List Char → Option (List Nat)
  | [] => some []
  | c0 :: c1 :: c2 :: c3 :: rest =>
    match base64Value c0, base64Value c1 with
    | some v0, some v1 =>
      if c2 = padChar && c3 = padChar && rest.isEmpty then
        some [v0 * 4 + v1 / 16]
      else
        match base64Value c2 with
        | none => none
        | some v2 =>
          if c3 = padChar && rest.isEmpty then
            some [v0 * 4 + v1 / 16, v1 % 16 * 16 + v2 / 4]
          else
            match base64Value c3, fromBase64 rest with
            | some v3, some bytes =>
              some ((v0 * 4 + v1 / 16) :: (v1 % 16 * 16 + v2 / 4) :: (v2 % 4 * 64 + v3) :: bytes)
            | _, _ => none
    | _, _ => none
  | _ => none

end Buffer

namespace Base64Url

/-- Modelled from the spec: replacement of `+` by `-` in `fromBase64`. -/
def plusToMinus (c : Char) : Char := if c.toNat = 43 then Char.ofNat 45 else c

/-- Modelled from the spec: replacement of `/` by `_` in `fromBase64`. -/
def slashToUnderscore (c : Char) : Char := if c.toNat = 47 then Char.ofNat 95 else c

/-- Modelled from the spec: replacement of `-` by `+` in `toBase64`. -/
def minusToPlus (c : Char) : Char := if c.toNat = 45 then Char.ofNat 43 else c

/-- Modelled from the spec: replacement of `_` by `/` in `toBase64`. -/
def underscoreToSlash (c : Char) : Char := if c.toNat = 95 then Char.ofNat 47 else c

/-- Modelled from the spec: `fromBase64` of the base64url package: every
`=` is removed, every `+` becomes `-` and every `/` becomes `_`. -/
def fromBase64 (base64 : List Char) : List Char :=
  ((base64.filter (fun c => c.toNat != 61)).map plusToMinus).map slashToUnderscore

/-- Modelled from the spec: `padString` of the base64url package. -/
def padString (input : List Char) : List Char :=
  let diff := input.length % 4
  if diff = 0 then input else input ++ List.replicate (4 - diff) Buffer.padChar

/-- Modelled from the spec: `toBase64` of the base64url package: the
input is padded, then every `-` becomes `+` and every `_` becomes `/`. -/
def toBase64 (base64url : List Char) : List Char :=
  ((padString base64url).map minusToPlus).map underscoreToSlash

/-- Modelled from the spec: the URL-safe characters, `A-Z a-z 0-9 - _`. -/
def isUrlSafe (c : Char) : Bool :=
  let n := c.toNat
  (65 ≤ n && n ≤ 90) || (97 ≤ n && n ≤ 122) || (48 ≤ n && n ≤ 57) || n = 45 || n = 95

/-- Modelled from the spec: `encode` of the base64url package (the `encode`
the component imports), `fromBase64(Buffer.from(input, "utf8").toString("base64"))`. -/
def encode (input : String) : String :=
  String.mk (fromBase64 (Buffer.toStringBase64 (Buffer.fromUtf8 input.data)))

/-- Modelled from the spec: `decode` of the base64url package,
`Buffer.from(toBase64(base64url), "base64").toString("utf8")`. -/
def decode (base64url : String) : Option String :=
  match Buffer.fromBase64 (toBase64 base64url.data) with
  | none => none
  | some bytes => (Buffer.toStringUtf8 bytes).map String.mk

end Base64Url

namespace JSON

/-- Modelled from the spec: the quotation mark of JSON texts. -/
def quoteMark : Char := Char.ofNat 34

/-- Modelled from the spec: the reverse solidus of JSON escapes. -/
def backslash : Char := Char.ofNat 92

/-- Modelled from the spec: a lower-case hexadecimal digit of a JSON escape. -/
def hexDigit (n : Nat) : Char :=
  if n < 10 then Char.ofNat (48 + n) else Char.ofNat (87 + n)

/-- Modelled from the spec: the escape of one character inside a quoted string,
as `JSON.stringify` of the language runtime writes it. -/
def quoteChar (c : Char) : List Char :=
  let n := c.toNat
  if n = 34 then [backslash, quoteMark]
  else if n = 92 then [backslash, backslash]
  else if n = 8 then [backslash, Char.ofNat 98]
  else if n = 12 then [backslash, Char.ofNat 102]
  else if n = 10 then [backslash, Char.ofNat 110]
  else if n = 13 then [backslash, Char.ofNat 114]
  else if n = 9 then [backslash, Char.ofNat 116]
  else if n < 32 then
    [backslash, Char.ofNat 117, Char.ofNat 48, Char.ofNat 48, hexDigit (n / 16), hexDigit (n % 16)]
  else [c]

/-- Modelled from the spec: the escaped content of a string in a JSON text. -/
def quoteBody : List Char → List Char
  | [] => []
  | c :: cs => quoteChar c ++ quoteBody cs

/-- Modelled from the spec: a string serialized by `JSON.stringify`. -/
def quoteString (s : String) : List Char :=
  quoteMark :: (quoteBody s.data ++ [quoteMark])

/-- Modelled from the spec: one member `"key":"value"` of a serialized object. -/
def stringifyMember (m : String × String) : List Char :=
  quoteString m.1 ++ Char.ofNat 58 :: quoteString m.2

/-- Modelled from the spec: the members of a serialized object, separated by
commas. -/
def stringifyMembers : List (String × String) → List Char
  | [] => []
  | [m] => stringifyMember m
  | m :: m2 :: ms => stringifyMember m ++ Char.ofNat 44 :: stringifyMembers (m2 :: ms)

/-- Modelled from the spec: `JSON.stringify` of the language runtime, applied
to an object whose own properties, in order, are the given string members. -/
def stringify (members : List (String × String)) : String :=
  String.mk (Char.ofNat 123 :: (stringifyMembers members ++ [Char.ofNat 125]))

/-- Modelled from the spec: the value of a hexadecimal digit of a JSON escape. -/
def hexValue (c : Char) : Option Nat :=
  let n := c.toNat
  if 48 ≤ n && n ≤ 57 then some (n - 48)
  else if 97 ≤ n && n ≤ 102 then some (n - 87)
  else if 65 ≤ n && n ≤ 70 then some (n - 55)
  else none

/-- Modelled from the spec: reading one character, escaped or not, of a quoted
string (an escape that names a surrogate code unit is refused). -/
def unescapeChar : List Char → Option (Char × List Char)
  | [] => none
  | c :: rest =>
    if c.toNat = 92 then
      match rest with
      | [] => none
      | e :: rest1 =>
        if e.toNat = 34 then some (quoteMark, rest1)
        else if e.toNat = 92 then some (backslash, rest1)
        else if e.toNat = 47 then some (Char.ofNat 47, rest1)
        else if e.toNat = 98 then some (Char.ofNat 8, rest1)
        else if e.toNat = 102 then some (Char.ofNat 12, rest1)
        else if e.toNat = 110 then some (Char.ofNat 10, rest1)
        else if e.toNat = 114 then some (Char.ofNat 13, rest1)
        else if e.toNat = 116 then some (Char.ofNat 9, rest1)
        else if e.toNat = 117 then
          match rest1 with
          | h1 :: h2 :: h3 :: h4 :: rest2 =>
            match hexValue h1, hexValue h2, hexValue h3, hexValue h4 with
            | some v1, some v2, some v3, some v4 =>
              let n := ((v1 * 16 + v2) * 16 + v3) * 16 + v4
              if 55296 ≤ n && n < 57344 then none else some (Char.ofNat n, rest2)
            | _, _, _, _ => none
          | _ => none
        else none
    else if c.toNat < 32 then none
    else some (c, rest)

/-- Modelled from the spec: reading the content of a quoted string up to its
closing quotation mark; every round consumes at least one character, so a fuel
of the length of the input is never exhausted. -/
def parseStringBody : Nat → List Char → Option (List Char × List Char)
  | 0, _ => none
  | _ + 1, [] => none
  | fuel + 1, c :: rest =>
    if c.toNat = 34 then some ([], rest)
    else
      match unescapeChar (c :: rest) with
      | none => none
      | some (ch, rest1) =>
        match parseStringBody fuel rest1 with
        | none => none
        | some (s, rest2) => some (ch :: s, rest2)

/-- Modelled from the spec: reading a quoted string of a JSON text. -/
def parseString : List Char → Option (String × List Char)
  | [] => none
  | c :: rest =>
    if c.toNat = 34 then
      match parseStringBody rest.length rest with
      | none => none
      | some (s, rest1) => some (String.mk s, rest1)
    else none

/-- Modelled from the spec: reading one member `"key":"value"` of a JSON text. -/
def parseMember (cs : List Char) : Option ((String × String) × List Char) :=
  match parseString cs with
  | none => none
  | some (key, rest) =>
    match rest with
    | [] => none
    | c :: rest1 =>
      if c.toNat = 58 then
        match parseString rest1 with
        | none => none
        | some (value, rest2) => some ((key, value), rest2)
      else none

/-- Modelled from the spec: reading the members of an object up to and including
the closing brace. -/
def parseMembers : Nat → List Char → Option (List (String × String))
  | 0, _ => none
  | fuel + 1, cs =>
    match parseMember cs with
    | none => none
    | some (m, rest) =>
      match rest with
      | [] => none
      | c :: rest1 =>
        if c.toNat = 125 then (if rest1.isEmpty then some [m] else none)
        else if c.toNat = 44 then
          match parseMembers fuel rest1 with
          | none => none
          | some ms => some (m :: ms)
        else none

/-- Modelled from the spec: `JSON.parse` of the language runtime, on the texts
that are an object of string members written without white space; any other
text gives `none`.  The members are returned in the order of the text. -/
def parse (text : String) : Option (List (String × String)) :=
  match text.data with
  | [] => none
  | c :: rest =>
    if c.toNat = 123 then
      match rest with
      | [d] => if d.toNat = 125 then some [] else none
      | _ => parseMembers rest.length rest
    else none

end JSON

/-- The object `options` built by `startNewConversation`:
`{ conversationId, conversationMode: props.mode, endpointId: props.endpointId }`.
A property whose value is `undefined` is `none`. -/
structure Options where
  conversationId : String
  conversationMode : Option String
  endpointId : Option String
  deriving DecidableEq, Repr

/-- The own properties of `options` that `JSON.stringify` writes: a property
whose value is `undefined` is left out. -/
def Options.members (o : Options) : List (String × String) :=
  [("conversationId", o.conversationId)]
    ++ (match o.conversationMode with
        | some m => [("conversationMode", m)]
        | none => [])
    ++ (match o.endpointId with
        | some e => [("endpointId", e)]
        | none => [])

/-- Modelled from the spec: reading a property of a parsed object; of two
members with one key the later one counts. -/
def getProperty (members : List (String × String)) (key : String) : Option String :=
  members.reverse.lookup key

/-- Modelled from the spec: the options object a parsed text denotes. -/
def Options.ofMembers (members : List (String × String)) : Option Options :=
  match getProperty members "conversationId" with
  | none => none
  | some cid =>
    some { conversationId := cid,
           conversationMode := getProperty members "conversationMode",
           endpointId := getProperty members "endpointId" }

/-- The expression `encode(JSON.stringify(options))` of `initConversation`. -/
def encodedOptions (options : Options) : String :=
  Base64Url.encode (JSON.stringify options.members)

/-- Modelled from the spec: decoding a session token, URL-safe base64 decoding
followed by JSON parsing (the far endpoint does it; the component never does). -/
def decodeOptions (token : String) : Option Options :=
  match Base64Url.decode token with
  | none => none
  | some text =>
    match JSON.parse text with
    | none => none
    | some members => Options.ofMembers members

/-! ## Effects -/

/-- A value caught by a `catch` clause: a rejected value with its rendering as
text, an `Error` made by `new Error(message)`, or a `TypeError` of the engine. -/
inductive Thrown
  | value (text : String)
  | error (message : String)
  | typeError (message : String)
  deriving DecidableEq, Repr

/-- The text `${err}` of a caught value. -/
def Thrown.render : Thrown → String
  | .value text => text
  | .error message => "Error: " ++ message
  | .typeError message => "TypeError: " ++ message

/-- The object a `transcript:new` request is acknowledged with. -/
structure Conversation where
  conversationId : Option String
  deriving DecidableEq, Repr

/-- A positional argument of a command-dispatch request. -/
inductive Arg
  | text (value : Option String)
  | activities (value : List Activity)
  deriving DecidableEq, Repr

/-- The argument of `new BotChat.DirectLine({ secret, domain, webSocket })`. -/
structure DirectLineOptions where
  secret : String
  domain : String
  webSocket : Bool
  deriving DecidableEq, Repr

/-- The side effects of the component, as they appear in a trace. -/
inductive Effect
  | storeDispatch (a : ChatAction)
  | propsDispatch (a : ChatAction)
  | unsubscribe (s : Subscription)
  | newBehaviorSubject (subject : Subject)
  | subscribe (subject : Subject) (s : Subscription)
  | directLineEnd (dl : DirectLine)
  | createStore (w : WebChatStore)
  | newDirectLine (options : DirectLineOptions) (dl : DirectLine)
  | remoteCall (name : String) (args : List Arg)
  | consoleError (label : String) (err : Thrown)
  deriving DecidableEq, Repr

/-- A computation of the component: the effects performed, in order, and how
it ended (a value, or a thrown value that nothing caught). -/
structure Run (α : Type) where
  trace : List Effect
  result : Except Thrown α

namespace Run

/-- Ending with a value, without effects. -/
def pure {α : Type} (a : α) : Run α := ⟨[], Except.ok a⟩

/-- The statement `throw err`. -/
def throw {α : Type} (err : Thrown) : Run α := ⟨[], Except.error err⟩

/-- Performing one effect. -/
def emit (e : Effect) : Run Unit := ⟨[e], Except.ok ()⟩

/-- Sequencing: the second computation runs only when the first one ended with
a value. -/
def bind {α β : Type} (r : Run α) (f : α → Run β) : Run β :=
  match r.result with
  | Except.error err => ⟨r.trace, Except.error err⟩
  | Except.ok a => ⟨r.trace ++ (f a).trace, (f a).result⟩

/-- The statement `try { body } catch (err) { handler }`. -/
def tryCatch {α : Type} (body : Run α) (handler : Thrown → Run α) : Run α :=
  match body.result with
  | Except.ok a => ⟨body.trace, Except.ok a⟩
  | Except.error err => ⟨body.trace ++ (handler err).trace, (handler err).result⟩

end Run

/-- What the collaborators hand to one invocation of `startNewConversation`:
the token of `uniqueId()`, the value of `SettingsService.emulator.url`, and the
objects made by `new BehaviorSubject({})`, `selectedActivity$.subscribe(...)`,
`BotChat.createStore()` and `new BotChat.DirectLine(...)`. -/
structure Env where
  uniqueId : String
  emulatorUrl : String
  selectedActivity : Subject
  subscription : Subscription
  webChatStore : WebChatStore
  directLine : DirectLine
  deriving DecidableEq, Repr

/-- How the awaited command-dispatch requests of one invocation settle. -/
structure RemoteOutcomes where
  transcriptNew : Except Thrown (Option Conversation)
  feedDeepLink : Except Thrown Unit
  feedDisk : Except Thrown Unit

/-- The call `await CommandService.remoteCall(name, ...args)`: the request is
issued, and the call ends as the request settles. -/
def remoteCall {α : Type} (name : String) (args : List Arg) (outcome : Except Thrown α) :
    Run α :=
  ⟨[Effect.remoteCall name args], outcome⟩

/-- The member access `conversation.conversationId`, a `TypeError` when the
acknowledged value is `null` or `undefined`. -/
def Conversation.member : Option Conversation → Run (Option String)
  | some conversation => Run.pure conversation.conversationId
  | none => Run.throw (Thrown.typeError "Cannot read property conversationId of undefined")

/-! ## Starting a conversation -/

/-- The text of `${ props.mode }` in a template literal. -/
def templateMode : Option EmulatorMode → String
  | some m => m.toString
  | none => "undefined"

/-- The constant `conversationId` of `startNewConversation`,
the template `${ uniqueId() }|${ props.mode }`. -/
def newConversationId (props : Props) (env : Env) : String :=
  env.uniqueId ++ "|" ++ templateMode props.mode

/-- The constant `options` of `startNewConversation`. -/
def buildOptions (props : Props) (env : Env) : Options :=
  { conversationId := newConversationId props env,
    conversationMode := props.mode.map EmulatorMode.toString,
    endpointId := props.endpointId }

/-- The method `initConversation(props, options, selectedActivity$, subscription)`. -/
def initConversation (props : Props) (options : Options) (selectedActivity : Subject)
    (subscription : Subscription) (env : Env) : List Effect :=
  [ Effect.createStore env.webChatStore,
    Effect.newDirectLine
      { secret := encodedOptions options,
        domain := env.emulatorUrl ++ "/v3/directline",
        webSocket := false }
      env.directLine,
    Effect.propsDispatch
      (ChatAction.newConversation props.documentId
        { conversationId := options.conversationId,
          webChatStore := env.webChatStore,
          directLine := env.directLine,
          selectedActivity := selectedActivity,
          subscription := subscription }) ]

/-- The statements of `startNewConversation(props?)` before
`if (props.mode === "transcript")`: the two clearing dispatches, the release of
the previous subscription, the new subject and its subscription (the subject
emits `{}` on subscription, which has no `activity` and so dispatches nothing),
the end of the previous transport, and `initConversation`.  The endpoint lookup
(`getActiveBot`, `services.find`) performs no effect and its value is not used
afterwards. -/
def startNewConversationHead (thisProps : Props) (arg : Option Props) (env : Env) :
    List Effect :=
  let props := resolveProps thisProps arg
  [ Effect.storeDispatch (ChatAction.clearLog thisProps.document.documentId),
    Effect.storeDispatch (ChatAction.setInspectorObjects props.document.documentId []) ]
  ++ (match props.document.subscription with
      | some s => [Effect.unsubscribe s]
      | none => [])
  ++ [ Effect.newBehaviorSubject env.selectedActivity,
       Effect.subscribe env.selectedActivity env.subscription ]
  ++ (match props.document.directLine with
      | some dl => [Effect.directLineEnd dl]
      | none => [])
  ++ initConversation props (buildOptions props env) env.selectedActivity env.subscription env

/-- The label of the outer `console.error`. -/
def transcriptErrorLabel : String := "Error creating a new conversation for transcript mode: "

/-- The message written in front of a failure of the deep-link feed. -/
def deepLinkFeedMessage : String := "Error while feeding deep-linked transcript to conversation: "

/-- The message written in front of a failure of the disk feed. -/
def diskFeedMessage : String := "Error while feeding transcript on disk to conversation: "

/-- The body of `if (props.mode === "transcript")` in `startNewConversation`:
the outer `try`/`catch` around the `transcript:new` request and the two inner
`try`/`catch` blocks around the feed requests. -/
def feedTranscript (props : Props) (conversationId : String) (outcomes : RemoteOutcomes) :
    Run Unit :=
  Run.tryCatch
    (Run.bind
      (remoteCall "transcript:new" [Arg.text (some conversationId)] outcomes.transcriptNew)
      (fun conversation =>
        match props.document.deepLink, props.document.activities with
        | true, some activities =>
          Run.tryCatch
            (Run.bind (Conversation.member conversation) (fun cid =>
              remoteCall "emulator:feed-transcript:deep-link"
                [Arg.text cid, Arg.activities activities] outcomes.feedDeepLink))
            (fun err => Run.throw (Thrown.error (deepLinkFeedMessage ++ err.render)))
        | _, _ =>
          Run.tryCatch
            (Run.bind (Conversation.member conversation) (fun cid =>
              remoteCall "emulator:feed-transcript:disk"
                [Arg.text cid, Arg.text (some props.document.documentId)] outcomes.feedDisk))
            (fun err => Run.throw (Thrown.error (diskFeedMessage ++ err.render)))))
    (fun err => Run.emit (Effect.consoleError transcriptErrorLabel err))

/-- The method `startNewConversation(props?)`, run to the end of its last
continuation. -/
def startNewConversation (thisProps : Props) (arg : Option Props) (env : Env)
    (outcomes : RemoteOutcomes) : Run Unit :=
  let props := resolveProps thisProps arg
  Run.bind ⟨startNewConversationHead thisProps arg env, Except.ok ()⟩ (fun _ =>
    if props.mode = some EmulatorMode.transcript then
      feedTranscript props (newConversationId props env) outcomes
    else
      Run.pure ())

/-- The method `handleStartOverClick()`. -/
def handleStartOverClick (thisProps : Props) (env : Env) (outcomes : RemoteOutcomes) :
    Run Unit :=
  startNewConversation thisProps none env outcomes

/-- The method `handleExportClick()`. -/
def handleExportClick (thisProps : Props) : List Effect :=
  match thisProps.document.directLine with
  | some dl => [Effect.remoteCall "emulator:save-transcript-to-file" [Arg.text dl.conversationId]]
  | none => []

/-! ## Observations on traces -/

/-- Whether an effect is one of the two feed requests. -/
def isFeedCall : Effect → Bool
  | Effect.remoteCall name _ =>
    name == "emulator:feed-transcript:deep-link" || name == "emulator:feed-transcript:disk"
  | _ => false

/-- The feed requests of a trace, in order. -/
def feedCalls (trace : List Effect) : List Effect :=
  trace.filter isFeedCall

/-- The names of the command-dispatch requests of a trace, in order. -/
def requestNames : List Effect → List String
  | [] => []
  | Effect.remoteCall name _ :: es => name :: requestNames es
  | _ :: es => requestNames es

/-- The actions a trace dispatches, through `store.dispatch` or
`props.dispatch`, in order. -/
def dispatchedActions : List Effect → List ChatAction
  | [] => []
  | Effect.storeDispatch a :: es => a :: dispatchedActions es
  | Effect.propsDispatch a :: es => a :: dispatchedActions es
  | _ :: es => dispatchedActions es

/-- The `newConversation` records a trace dispatches, with the document id they
are committed under. -/
def newConversationRecords : List Effect → List (String × ConversationRecord)
  | [] => []
  | Effect.storeDispatch (ChatAction.newConversation d r) :: es =>
    (d, r) :: newConversationRecords es
  | Effect.propsDispatch (ChatAction.newConversation d r) :: es =>
    (d, r) :: newConversationRecords es
  | _ :: es => newConversationRecords es

/-- The transports a trace constructs, with the options they are constructed
from. -/
def constructedTransports : List Effect → List (DirectLineOptions × DirectLine)
  | [] => []
  | Effect.newDirectLine options dl :: es => (options, dl) :: constructedTransports es
  | _ :: es => constructedTransports es

/-- The transports a trace calls `end()` on. -/
def endedTransports : List Effect → List DirectLine
  | [] => []
  | Effect.directLineEnd dl :: es => dl :: endedTransports es
  | _ :: es => endedTransports es

/-- Whether an effect is a command-dispatch request or a console report. -/
def isRequestOrReport : Effect → Bool
  | Effect.remoteCall _ _ => true
  | Effect.consoleError _ _ => true
  | _ => false

/-- Collaborator values for the examples. -/
def sampleEnv : Env :=
  { uniqueId := "tok", emulatorUrl := "http://localhost:9000",
    selectedActivity := { handle := 10 }, subscription := { handle := 11 },
    webChatStore := { handle := 12 },
    directLine := { handle := 13, conversationId := none } }

/-- Requests that all succeed, acknowledged with the given conversation id. -/
def okOutcomes (conversationId : String) : RemoteOutcomes :=
  { transcriptNew := Except.ok (some { conversationId := some conversationId }),
    feedDeepLink := Except.ok (),
    feedDisk := Except.ok () }

/-- A deep-linked transcript document with two inline activities. -/
def deepLinkProps : Props :=
  { conversationId := none,
    document :=
      { documentId := "t1", conversationId := none, endpointId := none,
        directLine := none, subscription := none, deepLink := true,
        activities := some [{ id := "a1" }, { id := "a2" }] },
    documentId := "t1", endpointId := none, mode := some EmulatorMode.transcript }

/-! ## The store and successive invocations -/

/-- The part of the root state the component reads: `state.chat.chats`. -/
structure RootState where
  chats : String → Option Document

/-- The own props `connect` merges into the props of the component. -/
structure OwnProps where
  documentId : String
  mode : Option EmulatorMode
  deriving DecidableEq, Repr

/-- The function `mapStateToProps(state, { documentId })`, with the own props
merged in as `connect` does; reading a property of an absent chat record is a
`TypeError`, given as `none`. -/
def mapStateToProps (state : RootState) (own : OwnProps) : Option Props :=
  match state.chats own.documentId with
  | none => none
  | some document =>
    some { conversationId := document.conversationId,
           document := document,
           documentId := own.documentId,
           endpointId := document.endpointId,
           mode := own.mode }

/-- Modelled from the spec: the chat reducer, which is not among the sources.
A `newConversation` record is committed to shared state under the document's
id, with its conversation id, transport handle and subscription handle; the
other actions of the component leave these fields of every record as they are. -/
def chatReducer (state : RootState) : ChatAction → RootState
  | ChatAction.newConversation documentId record =>
    match state.chats documentId with
    | none => state
    | some document =>
      { chats := fun d =>
          if d = documentId then
            some { document with
                    conversationId := some record.conversationId,
                    directLine := some record.directLine,
                    subscription := some record.subscription }
          else state.chats d }
  | _ => state

/-- The state after the dispatches of a trace, in order. -/
def applyEffects (state : RootState) : List Effect → RootState
  | [] => state
  | Effect.storeDispatch a :: es => applyEffects (chatReducer state a) es
  | Effect.propsDispatch a :: es => applyEffects (chatReducer state a) es
  | _ :: es => applyEffects state es

/-- The store together with the allocation of object identities. -/
structure World where
  state : RootState
  nextHandle : Nat
  emulatorUrl : String

/-- What the outside hands to one invocation: the unique token and the outcomes
of its requests. -/
structure Invocation where
  uniqueId : String
  outcomes : RemoteOutcomes

/-- The collaborator values of one invocation: the four objects it creates get
the next four identities. -/
def World.env (w : World) (inv : Invocation) : Env :=
  { uniqueId := inv.uniqueId,
    emulatorUrl := w.emulatorUrl,
    selectedActivity := { handle := w.nextHandle },
    subscription := { handle := w.nextHandle + 1 },
    webChatStore := { handle := w.nextHandle + 2 },
    directLine := { handle := w.nextHandle + 3, conversationId := none } }

/-- One click on Start Over: the component reads its current props from the
store, runs `handleStartOverClick`, and the store takes the dispatches. -/
def startOver (own : OwnProps) (w : World) (inv : Invocation) :
    Option (World × List Effect) :=
  match mapStateToProps w.state own with
  | none => none
  | some props =>
    let run := handleStartOverClick props (w.env inv) inv.outcomes
    some ({ state := applyEffects w.state run.trace,
            nextHandle := w.nextHandle + 4,
            emulatorUrl := w.emulatorUrl }, run.trace)

/-- Successive clicks on Start Over, with the trace of all of them. -/
def startOverAll (own : OwnProps) : World → List Invocation → Option (World × List Effect)
  | w, [] => some (w, [])
  | w, inv :: invs =>
    match startOver own w inv with
    | none => none
    | some (w1, t1) =>
      match startOverAll own w1 invs with
      | none => none
      | some (w2, t2) => some (w2, t1 ++ t2)

/-- The identities of the transports a trace constructs. -/
def constructedHandles (trace : List Effect) : List Nat :=
  (constructedTransports trace).map (fun p => p.2.handle)

/-- The identities of the transports a trace calls `end()` on. -/
def endedHandles (trace : List Effect) : List Nat :=
  (endedTransports trace).map (fun dl => dl.handle)

/-- The identities of the transports a trace constructs and does not end. -/
def liveHandles (trace : List Effect) : List Nat :=
  (constructedHandles trace).filter (fun h => !(endedHandles trace).contains h)

/-- The identity of the transport a document holds. -/
def Document.transportHandle (document : Document) : Option Nat :=
  document.directLine.map (fun dl => dl.handle)

/-- The invariant of successive invocations on the document of `own`: the
document exists; identities in use lie below the next identity; no transport
is constructed twice; a constructed transport is not ended exactly when the
document holds it; and once a transport has been constructed the document holds
a constructed one. -/
def SessionInvariant (own : OwnProps) (trace : List Effect) (w : World) : Prop :=
  ∃ document, w.state.chats own.documentId = some document ∧
    (∀ h, document.transportHandle = some h → h < w.nextHandle) ∧
    (∀ h ∈ constructedHandles trace, h < w.nextHandle) ∧
    (∀ h ∈ endedHandles trace, h < w.nextHandle) ∧
    (constructedHandles trace).Nodup ∧
    (∀ h ∈ constructedHandles trace,
      h ∉ endedHandles trace ↔ document.transportHandle = some h) ∧
    (constructedHandles trace ≠ [] →
      ∃ h ∈ constructedHandles trace, document.transportHandle = some h)

/-- A world whose store holds one live-chat document `a` with a transport. -/
def sampleWorld : World :=
  { state := { chats := fun d => if d = "a" then some (liveProps "a" none).document else none },
    nextHandle := 20,
    emulatorUrl := "http://localhost:9000" }

/-- An invocation with the given token whose requests succeed. -/
def sampleInvocation (token : String) : Invocation :=
  { uniqueId := token, outcomes := okOutcomes token }

/-! ## Pings -/

/-- The document ids of the `pingDocument` actions among some actions. -/
def pingedDocuments : List ChatAction → List String
  | [] => []
  | ChatAction.pingDocument d :: as => d :: pingedDocuments as
  | _ :: as => pingedDocuments as

/-- The document ids of the `pingDocument` actions a lifecycle method
dispatches directly. -/
def pingCalls : List Call → List String
  | [] => []
  | Call.storeDispatch a :: cs => pingedDocuments [a] ++ pingCalls cs
  | Call.startNewConversation _ :: cs => pingCalls cs

/-! ## Theorems: the start decision -/

/-- C1: `shouldStartNewConversation(props)` is true exactly when the document
has no transport (`directLine` absent) or the document's `conversationId`
differs from `directLine.conversationId`; so it is true whenever `directLine`
is absent, and false whenever `directLine` is present with the document's
conversation id.  The props are the argument, or `this.props` without one. -/
theorem shouldStartNewConversation_iff (thisProps : Props) (arg : Option Props) :
    (shouldStartNewConversation thisProps arg = true ↔
      ((resolveProps thisProps arg).document.directLine = none ∨
        ∃ dl, (resolveProps thisProps arg).document.directLine = some dl ∧
          (resolveProps thisProps arg).document.conversationId ≠ dl.conversationId)) ∧
    ((resolveProps thisProps arg).document.directLine = none →
      shouldStartNewConversation thisProps arg = true) ∧
    (∀ dl, (resolveProps thisProps arg).document.directLine = some dl →
      (resolveProps thisProps arg).document.conversationId = dl.conversationId →
      shouldStartNewConversation thisProps arg = false) := by
  unfold shouldStartNewConversation
  cases h : (resolveProps thisProps arg).document.directLine with
  | none => simp [h]
  | some dl => simp [h]

/-- Witness for C1: a document without a transport needs a conversation, a
document whose transport reports the document's conversation id does not. -/
theorem shouldStartNewConversation_iff_witness :
    shouldStartNewConversation (sampleProps "a" none) (some (sampleProps "a" none)) = true ∧
    shouldStartNewConversation (sampleProps "a" none) (some (liveProps "a" none)) = false :=
  ⟨(shouldStartNewConversation_iff (sampleProps "a" none) (some (sampleProps "a" none))).2.1 rfl,
    (shouldStartNewConversation_iff (sampleProps "a" none) (some (liveProps "a" none))).2.2
      { handle := 1, conversationId := some "c0|livechat" } rfl rfl⟩

/-- C2, as stated, fails: with a changed document id and a next document that
has no transport session, `componentWillReceiveProps` does invoke
`startNewConversation(nextProps)`, although the claim says that it is not
invoked when the transport session is absent. -/
theorem componentWillReceiveProps_absent_session_starts :
    ¬ (∀ thisProps nextProps : Props,
        (nextProps.document.directLine = none ∨
            thisProps.document.documentId = nextProps.document.documentId →
          startCalls (componentWillReceiveProps thisProps nextProps) = []) ∧
        (¬ (nextProps.document.directLine = none ∨
              thisProps.document.documentId = nextProps.document.documentId) →
          startCalls (componentWillReceiveProps thisProps nextProps) = [some nextProps])) := by
  intro h
  have h1 := (h (sampleProps "a" none) (sampleProps "b" none)).1 (Or.inl rfl)
  revert h1
  decide

/-- C2, amended: `componentWillReceiveProps` does not invoke
`startNewConversation` when the next document's transport session is present
or the document id is unchanged, and invokes `startNewConversation(nextProps)`
exactly once in every other case (transport session absent and document id
changed). -/
theorem componentWillReceiveProps_startCalls (thisProps nextProps : Props) :
    (nextProps.document.directLine ≠ none ∨
        thisProps.document.documentId = nextProps.document.documentId →
      startCalls (componentWillReceiveProps thisProps nextProps) = []) ∧
    (¬ (nextProps.document.directLine ≠ none ∨
          thisProps.document.documentId = nextProps.document.documentId) →
      startCalls (componentWillReceiveProps thisProps nextProps) = [some nextProps]) := by
  unfold componentWillReceiveProps
  cases hd : nextProps.document.directLine with
  | none =>
    by_cases hid : thisProps.document.documentId = nextProps.document.documentId
    · simp [hid, startCalls]
    · simp [hid, startCalls]
  | some dl =>
    by_cases hid : thisProps.document.documentId = nextProps.document.documentId
    · simp [hid, startCalls]
    · simp [hid, startCalls]

/-- Witness for C2 amended: a present transport gives no invocation, an absent
one with a changed document id gives exactly one. -/
theorem componentWillReceiveProps_startCalls_witness :
    startCalls (componentWillReceiveProps (sampleProps "a" none) (liveProps "b" none)) = [] ∧
    startCalls (componentWillReceiveProps (sampleProps "a" none) (sampleProps "b" none))
      = [some (sampleProps "b" none)] :=
  ⟨(componentWillReceiveProps_startCalls (sampleProps "a" none) (liveProps "b" none)).1
      (Or.inl (by decide)),
    (componentWillReceiveProps_startCalls (sampleProps "a" none) (sampleProps "b" none)).2
      (by decide)⟩

/-! ## Theorems: the start sequence -/

/-- Request names of a concatenation. -/
theorem requestNames_append (xs ys : List Effect) :
    requestNames (xs ++ ys) = requestNames xs ++ requestNames ys := by
  induction xs with
  | nil => rfl
  | cons e es ih => cases e <;> simp [requestNames, ih]

/-- Dispatched actions of a concatenation. -/
theorem dispatchedActions_append (xs ys : List Effect) :
    dispatchedActions (xs ++ ys) = dispatchedActions xs ++ dispatchedActions ys := by
  induction xs with
  | nil => rfl
  | cons e es ih => cases e <;> simp [dispatchedActions, ih]

/-- Committed records of a concatenation. -/
theorem newConversationRecords_append (xs ys : List Effect) :
    newConversationRecords (xs ++ ys) =
      newConversationRecords xs ++ newConversationRecords ys := by
  induction xs with
  | nil => rfl
  | cons e es ih =>
    cases e with
    | storeDispatch a => cases a <;> simp [newConversationRecords, ih]
    | propsDispatch a => cases a <;> simp [newConversationRecords, ih]
    | _ => simp [newConversationRecords, ih]

/-- Constructed transports of a concatenation. -/
theorem constructedTransports_append (xs ys : List Effect) :
    constructedTransports (xs ++ ys) =
      constructedTransports xs ++ constructedTransports ys := by
  induction xs with
  | nil => rfl
  | cons e es ih => cases e <;> simp [constructedTransports, ih]

/-- Ended transports of a concatenation. -/
theorem endedTransports_append (xs ys : List Effect) :
    endedTransports (xs ++ ys) = endedTransports xs ++ endedTransports ys := by
  induction xs with
  | nil => rfl
  | cons e es ih => cases e <;> simp [endedTransports, ih]

/-- A trace of requests and reports dispatches nothing, constructs no
transport, ends none and releases no subscription. -/
theorem observations_of_requests (t : List Effect)
    (h : ∀ e ∈ t, isRequestOrReport e = true) :
    dispatchedActions t = [] ∧ newConversationRecords t = [] ∧
      constructedTransports t = [] ∧ endedTransports t = [] ∧
      (∀ s, t.count (Effect.unsubscribe s) = 0) ∧
      (∀ dl, t.count (Effect.directLineEnd dl) = 0) := by
  induction t with
  | nil => simp [dispatchedActions, newConversationRecords, constructedTransports,
      endedTransports]
  | cons e es ih =>
    have he := h e (List.mem_cons_self e es)
    have ih1 := ih (fun x hx => h x (List.mem_cons_of_mem e hx))
    cases e <;>
      simp_all [isRequestOrReport, dispatchedActions, newConversationRecords,
        constructedTransports, endedTransports]

/-- The transcript feeder only issues requests and reports. -/
theorem feedTranscript_trace_requests (props : Props) (conversationId : String)
    (outcomes : RemoteOutcomes) :
    ∀ e ∈ (feedTranscript props conversationId outcomes).trace, isRequestOrReport e = true := by
  unfold feedTranscript
  rcases hn : outcomes.transcriptNew with err | conversation
  · simp [Run.tryCatch, Run.bind, remoteCall, hn, Run.emit, isRequestOrReport]
  · rcases conversation with _ | conversation <;>
    rcases hdl : props.document.deepLink <;>
    rcases hact : props.document.activities with _ | acts <;>
    rcases hd : outcomes.feedDeepLink with e1 | u1 <;>
    rcases hk : outcomes.feedDisk with e2 | u2 <;>
    simp [Run.tryCatch, Run.bind, remoteCall, hn, hd, hk, Run.emit, Run.throw, Run.pure,
      Conversation.member, isRequestOrReport]

/-- The trace of an invocation is the head followed by a trace of requests and
reports, which is empty outside transcript mode. -/
theorem startNewConversation_trace (thisProps : Props) (arg : Option Props)
    (env : Env) (outcomes : RemoteOutcomes) :
    ∃ tail, (startNewConversation thisProps arg env outcomes).trace =
        startNewConversationHead thisProps arg env ++ tail ∧
      (∀ e ∈ tail, isRequestOrReport e = true) ∧
      ((resolveProps thisProps arg).mode = some EmulatorMode.transcript →
        tail = (feedTranscript (resolveProps thisProps arg)
          (newConversationId (resolveProps thisProps arg) env) outcomes).trace) ∧
      ((resolveProps thisProps arg).mode ≠ some EmulatorMode.transcript → tail = []) := by
  by_cases hmode : (resolveProps thisProps arg).mode = some EmulatorMode.transcript
  · refine ⟨_, ?_, feedTranscript_trace_requests _ _ outcomes, fun _ => rfl,
      fun h => absurd hmode h⟩
    simp [startNewConversation, Run.bind, hmode]
  · refine ⟨[], ?_, by simp, fun h => absurd h hmode, fun _ => rfl⟩
    simp [startNewConversation, Run.bind, hmode, Run.pure]

/-- The head of the start sequence issues no command-dispatch request. -/
theorem requestNames_startNewConversationHead (thisProps : Props) (arg : Option Props)
    (env : Env) : requestNames (startNewConversationHead thisProps arg env) = [] := by
  cases hs : (resolveProps thisProps arg).document.subscription <;>
    cases hd : (resolveProps thisProps arg).document.directLine <;>
    simp [startNewConversationHead, initConversation, hs, hd, requestNames]

/-- The head of the start sequence issues no feed request. -/
theorem feedCalls_startNewConversationHead (thisProps : Props) (arg : Option Props)
    (env : Env) : feedCalls (startNewConversationHead thisProps arg env) = [] := by
  cases hs : (resolveProps thisProps arg).document.subscription <;>
    cases hd : (resolveProps thisProps arg).document.directLine <;>
    simp [startNewConversationHead, initConversation, feedCalls, hs, hd, isFeedCall]

/-- The record the head of the start sequence commits. -/
theorem newConversationRecords_startNewConversationHead (thisProps : Props)
    (arg : Option Props) (env : Env) :
    newConversationRecords (startNewConversationHead thisProps arg env) =
      [((resolveProps thisProps arg).documentId,
        { conversationId := newConversationId (resolveProps thisProps arg) env,
          webChatStore := env.webChatStore,
          directLine := env.directLine,
          selectedActivity := env.selectedActivity,
          subscription := env.subscription })] := by
  cases hs : (resolveProps thisProps arg).document.subscription <;>
    cases hd : (resolveProps thisProps arg).document.directLine <;>
    simp [startNewConversationHead, initConversation, hs, hd, newConversationRecords,
      buildOptions]

/-- The transport the head of the start sequence constructs. -/
theorem constructedTransports_startNewConversationHead (thisProps : Props)
    (arg : Option Props) (env : Env) :
    constructedTransports (startNewConversationHead thisProps arg env) =
      [({ secret := encodedOptions (buildOptions (resolveProps thisProps arg) env),
          domain := env.emulatorUrl ++ "/v3/directline",
          webSocket := false },
        env.directLine)] := by
  cases hs : (resolveProps thisProps arg).document.subscription <;>
    cases hd : (resolveProps thisProps arg).document.directLine <;>
    simp [startNewConversationHead, initConversation, hs, hd, constructedTransports]

/-- The transports the head of the start sequence ends: the previous one of
the document, when there is one. -/
theorem endedTransports_startNewConversationHead (thisProps : Props)
    (arg : Option Props) (env : Env) :
    endedTransports (startNewConversationHead thisProps arg env) =
      (resolveProps thisProps arg).document.directLine.toList := by
  cases hs : (resolveProps thisProps arg).document.subscription <;>
    cases hd : (resolveProps thisProps arg).document.directLine <;>
    simp [startNewConversationHead, initConversation, hs, hd, endedTransports]

/-- C3: in a transcript-mode invocation whose `transcript:new` request is
acknowledged, exactly one feed request is issued: with the deep-link flag set
and inline activities it is `emulator:feed-transcript:deep-link` with the
acknowledged conversation id and the activities (the disk feed is not
called); without inline activities it is `emulator:feed-transcript:disk` with
the acknowledged conversation id and the document id (the deep-link feed is not
called). -/
theorem startNewConversation_feeds_exactly_one (thisProps : Props) (arg : Option Props)
    (env : Env) (outcomes : RemoteOutcomes) (conversation : Conversation)
    (hmode : (resolveProps thisProps arg).mode = some EmulatorMode.transcript)
    (hack : outcomes.transcriptNew = Except.ok (some conversation)) :
    (∃ call, feedCalls (startNewConversation thisProps arg env outcomes).trace = [call]) ∧
    (∀ activities, (resolveProps thisProps arg).document.deepLink = true →
      (resolveProps thisProps arg).document.activities = some activities →
      feedCalls (startNewConversation thisProps arg env outcomes).trace =
        [Effect.remoteCall "emulator:feed-transcript:deep-link"
          [Arg.text conversation.conversationId, Arg.activities activities]]) ∧
    ((resolveProps thisProps arg).document.activities = none →
      feedCalls (startNewConversation thisProps arg env outcomes).trace =
        [Effect.remoteCall "emulator:feed-transcript:disk"
          [Arg.text conversation.conversationId,
            Arg.text (some (resolveProps thisProps arg).document.documentId)]]) := by
  obtain ⟨tail, htrace, -, htail, -⟩ := startNewConversation_trace thisProps arg env outcomes
  have hhead := feedCalls_startNewConversationHead thisProps arg env
  rw [htrace, htail hmode]
  unfold feedCalls at hhead ⊢
  rw [List.filter_append, hhead]
  unfold feedTranscript
  rcases hdl : (resolveProps thisProps arg).document.deepLink <;>
    rcases hact : (resolveProps thisProps arg).document.activities with _ | acts <;>
    rcases hd : outcomes.feedDeepLink with e1 | u1 <;>
    rcases hk : outcomes.feedDisk with e2 | u2 <;>
    simp [hack, hd, hk, Run.tryCatch, Run.bind, remoteCall, Conversation.member, Run.pure,
      Run.throw, Run.emit, isFeedCall]

/-- Witness for C3: a deep-linked transcript with two inline activities is fed
through the deep-link request only. -/
theorem startNewConversation_feeds_exactly_one_witness :
    feedCalls (startNewConversation deepLinkProps none sampleEnv (okOutcomes "x")).trace =
      [Effect.remoteCall "emulator:feed-transcript:deep-link"
        [Arg.text (some "x"), Arg.activities [{ id := "a1" }, { id := "a2" }]]] :=
  (startNewConversation_feeds_exactly_one deepLinkProps none sampleEnv (okOutcomes "x")
    { conversationId := some "x" } rfl rfl).2.1 [{ id := "a1" }, { id := "a2" }] rfl rfl

/-- C4: with unique token `t` and mode `m`, the one `newConversation` record
that is dispatched carries the conversation id `t ++ "|" ++ m`, the one
transport that is constructed receives as secret the encoding of the options
object with that same conversation id, and the record holds that transport and
nothing of the previous session. -/
theorem startNewConversation_commits_fresh_id (thisProps : Props) (arg : Option Props)
    (env : Env) (outcomes : RemoteOutcomes) (m : EmulatorMode)
    (hm : (resolveProps thisProps arg).mode = some m) :
    newConversationRecords (startNewConversation thisProps arg env outcomes).trace =
      [((resolveProps thisProps arg).documentId,
        { conversationId := env.uniqueId ++ "|" ++ m.toString,
          webChatStore := env.webChatStore,
          directLine := env.directLine,
          selectedActivity := env.selectedActivity,
          subscription := env.subscription })] ∧
    constructedTransports (startNewConversation thisProps arg env outcomes).trace =
      [({ secret := encodedOptions
            { conversationId := env.uniqueId ++ "|" ++ m.toString,
              conversationMode := some m.toString,
              endpointId := (resolveProps thisProps arg).endpointId },
          domain := env.emulatorUrl ++ "/v3/directline",
          webSocket := false },
        env.directLine)] := by
  obtain ⟨tail, htrace, hreq, -, -⟩ := startNewConversation_trace thisProps arg env outcomes
  obtain ⟨-, hrec, hcon, -, -, -⟩ := observations_of_requests tail hreq
  rw [htrace, newConversationRecords_append, constructedTransports_append, hrec, hcon,
    newConversationRecords_startNewConversationHead,
    constructedTransports_startNewConversationHead]
  simp [buildOptions, newConversationId, hm, templateMode]

/-- Witness for C4: token `tok` in live-chat mode gives the id `tok|livechat`. -/
theorem startNewConversation_commits_fresh_id_witness :
    newConversationRecords
        (startNewConversation (liveProps "a" (some EmulatorMode.livechat)) none sampleEnv
          (okOutcomes "x")).trace =
      [("a",
        { conversationId := "tok" ++ "|" ++ "livechat",
          webChatStore := { handle := 12 },
          directLine := { handle := 13, conversationId := none },
          selectedActivity := { handle := 10 },
          subscription := { handle := 11 } })] :=
  (startNewConversation_commits_fresh_id (liveProps "a" (some EmulatorMode.livechat)) none
    sampleEnv (okOutcomes "x") EmulatorMode.livechat rfl).1

/-- C5: on a document that has a subscription and a transport, the trace of one
invocation splits at the construction of the new transport: the part before
holds the `unsubscribe()` of the previous subscription and the `end()` of the
previous transport, each exactly once, and neither a construction nor a
`newConversation` dispatch; the part after holds the `newConversation` dispatch
and no further `unsubscribe()`, `end()` or construction. -/
theorem startNewConversation_teardown_before_construction (thisProps : Props)
    (arg : Option Props) (env : Env) (outcomes : RemoteOutcomes) (s : Subscription)
    (dl : DirectLine)
    (hs : (resolveProps thisProps arg).document.subscription = some s)
    (hd : (resolveProps thisProps arg).document.directLine = some dl) :
    ∃ before after,
      (startNewConversation thisProps arg env outcomes).trace =
        before ++
          Effect.newDirectLine
            { secret := encodedOptions (buildOptions (resolveProps thisProps arg) env),
              domain := env.emulatorUrl ++ "/v3/directline",
              webSocket := false }
            env.directLine :: after ∧
      before.count (Effect.unsubscribe s) = 1 ∧
      before.count (Effect.directLineEnd dl) = 1 ∧
      constructedTransports before = [] ∧
      newConversationRecords before = [] ∧
      after.count (Effect.unsubscribe s) = 0 ∧
      after.count (Effect.directLineEnd dl) = 0 ∧
      constructedTransports after = [] ∧
      newConversationRecords after =
        [((resolveProps thisProps arg).documentId,
          { conversationId := newConversationId (resolveProps thisProps arg) env,
            webChatStore := env.webChatStore,
            directLine := env.directLine,
            selectedActivity := env.selectedActivity,
            subscription := env.subscription })] := by
  obtain ⟨tail, htrace, hreq, -, -⟩ := startNewConversation_trace thisProps arg env outcomes
  obtain ⟨-, hrec, hcon, -, hunsub, hend⟩ := observations_of_requests tail hreq
  refine ⟨[ Effect.storeDispatch (ChatAction.clearLog thisProps.document.documentId),
      Effect.storeDispatch
        (ChatAction.setInspectorObjects (resolveProps thisProps arg).document.documentId []),
      Effect.unsubscribe s,
      Effect.newBehaviorSubject env.selectedActivity,
      Effect.subscribe env.selectedActivity env.subscription,
      Effect.directLineEnd dl,
      Effect.createStore env.webChatStore ],
    Effect.propsDispatch
      (ChatAction.newConversation (resolveProps thisProps arg).documentId
        { conversationId := newConversationId (resolveProps thisProps arg) env,
          webChatStore := env.webChatStore,
          directLine := env.directLine,
          selectedActivity := env.selectedActivity,
          subscription := env.subscription }) :: tail, ?_, ?_, ?_, ?_, ?_, ?_, ?_, ?_, ?_⟩
  · rw [htrace]
    simp [startNewConversationHead, initConversation, hs, hd, buildOptions]
  · simp [List.count_cons]
  · simp [List.count_cons]
  · simp [constructedTransports]
  · simp [newConversationRecords]
  · simp [List.count_cons, hunsub]
  · simp [List.count_cons, hend]
  · simp [constructedTransports, hcon]
  · simp [newConversationRecords, hrec]

/-- Witness for C5: starting over on a live document. -/
theorem startNewConversation_teardown_before_construction_witness :
    ∃ before after,
      (startNewConversation (liveProps "a" (some EmulatorMode.livechat)) none sampleEnv
          (okOutcomes "x")).trace =
        before ++
          Effect.newDirectLine
            { secret := encodedOptions
                (buildOptions (resolveProps (liveProps "a" (some EmulatorMode.livechat)) none)
                  sampleEnv),
              domain := sampleEnv.emulatorUrl ++ "/v3/directline",
              webSocket := false }
            sampleEnv.directLine :: after ∧
      before.count (Effect.unsubscribe { handle := 2 }) = 1 ∧
      before.count
          (Effect.directLineEnd { handle := 1, conversationId := some "c0|livechat" }) = 1 :=
  match startNewConversation_teardown_before_construction
      (liveProps "a" (some EmulatorMode.livechat)) none sampleEnv (okOutcomes "x")
      { handle := 2 } { handle := 1, conversationId := some "c0|livechat" } rfl rfl with
  | ⟨before, after, h1, h2, h3, _⟩ => ⟨before, after, h1, h2, h3⟩

/-- C7: a transcript-mode invocation ends normally however its requests
settle; no request is issued twice; the trace is the head, which commits the
`newConversation` record and does not depend on the outcomes, followed by the
`transcript:new` request and a trace that dispatches nothing; a failed
deep-link feed is reported with the deep-link message and a failed disk feed
with the disk message. -/
theorem startNewConversation_survives_failed_requests (thisProps : Props)
    (arg : Option Props) (env : Env) (outcomes : RemoteOutcomes)
    (hmode : (resolveProps thisProps arg).mode = some EmulatorMode.transcript) :
    (startNewConversation thisProps arg env outcomes).result = Except.ok () ∧
    (requestNames (startNewConversation thisProps arg env outcomes).trace).Nodup ∧
    (∃ tail,
      (startNewConversation thisProps arg env outcomes).trace =
        startNewConversationHead thisProps arg env ++
          Effect.remoteCall "transcript:new"
            [Arg.text (some (newConversationId (resolveProps thisProps arg) env))] :: tail ∧
      dispatchedActions tail = []) ∧
    newConversationRecords (startNewConversation thisProps arg env outcomes).trace =
      newConversationRecords (startNewConversationHead thisProps arg env) ∧
    (∀ conversation activities err,
      outcomes.transcriptNew = Except.ok (some conversation) →
      (resolveProps thisProps arg).document.deepLink = true →
      (resolveProps thisProps arg).document.activities = some activities →
      outcomes.feedDeepLink = Except.error err →
      (startNewConversation thisProps arg env outcomes).trace =
        startNewConversationHead thisProps arg env ++
          [ Effect.remoteCall "transcript:new"
              [Arg.text (some (newConversationId (resolveProps thisProps arg) env))],
            Effect.remoteCall "emulator:feed-transcript:deep-link"
              [Arg.text conversation.conversationId, Arg.activities activities],
            Effect.consoleError "Error creating a new conversation for transcript mode: "
              (Thrown.error
                ("Error while feeding deep-linked transcript to conversation: "
                  ++ err.render)) ]) ∧
    (∀ conversation err,
      outcomes.transcriptNew = Except.ok (some conversation) →
      ((resolveProps thisProps arg).document.deepLink = false ∨
        (resolveProps thisProps arg).document.activities = none) →
      outcomes.feedDisk = Except.error err →
      (startNewConversation thisProps arg env outcomes).trace =
        startNewConversationHead thisProps arg env ++
          [ Effect.remoteCall "transcript:new"
              [Arg.text (some (newConversationId (resolveProps thisProps arg) env))],
            Effect.remoteCall "emulator:feed-transcript:disk"
              [Arg.text conversation.conversationId,
                Arg.text (some (resolveProps thisProps arg).document.documentId)],
            Effect.consoleError "Error creating a new conversation for transcript mode: "
              (Thrown.error
                ("Error while feeding transcript on disk to conversation: "
                  ++ err.render)) ]) := by
  obtain ⟨tail, htrace, hreq, htail, -⟩ := startNewConversation_trace thisProps arg env outcomes
  obtain ⟨-, hrec, -, -, -, -⟩ := observations_of_requests tail hreq
  have htail1 := htail hmode
  have hnames := requestNames_startNewConversationHead thisProps arg env
  refine ⟨?_, ?_, ?_, ?_, ?_, ?_⟩
  · simp only [startNewConversation, Run.bind, hmode, if_true]
    unfold feedTranscript
    rcases hn : outcomes.transcriptNew with err | conversation
    · simp [Run.tryCatch, Run.bind, remoteCall, hn, Run.emit]
    · rcases conversation with _ | conversation <;>
      rcases hdl : (resolveProps thisProps arg).document.deepLink <;>
      rcases hact : (resolveProps thisProps arg).document.activities with _ | acts <;>
      rcases hd : outcomes.feedDeepLink with e1 | u1 <;>
      rcases hk : outcomes.feedDisk with e2 | u2 <;>
      simp [Run.tryCatch, Run.bind, remoteCall, hn, hd, hk, Run.emit, Run.throw, Run.pure,
        Conversation.member]
  · rw [htrace, requestNames_append, hnames, htail1]
    unfold feedTranscript
    rcases hn : outcomes.transcriptNew with err | conversation
    · simp [Run.tryCatch, Run.bind, remoteCall, hn, Run.emit, requestNames]
    · rcases conversation with _ | conversation <;>
      rcases hdl : (resolveProps thisProps arg).document.deepLink <;>
      rcases hact : (resolveProps thisProps arg).document.activities with _ | acts <;>
      rcases hd : outcomes.feedDeepLink with e1 | u1 <;>
      rcases hk : outcomes.feedDisk with e2 | u2 <;>
      simp [Run.tryCatch, Run.bind, remoteCall, hn, hd, hk, Run.emit, Run.throw, Run.pure,
        Conversation.member, requestNames]
  · have hfirst : ∃ rest, tail =
        Effect.remoteCall "transcript:new"
          [Arg.text (some (newConversationId (resolveProps thisProps arg) env))] :: rest := by
      rw [htail1]
      unfold feedTranscript
      rcases hn : outcomes.transcriptNew with err | conversation
      · simp [Run.tryCatch, Run.bind, remoteCall, hn, Run.emit]
      · rcases conversation with _ | conversation <;>
        rcases hdl : (resolveProps thisProps arg).document.deepLink <;>
        rcases hact : (resolveProps thisProps arg).document.activities with _ | acts <;>
        rcases hd : outcomes.feedDeepLink with e1 | u1 <;>
        rcases hk : outcomes.feedDisk with e2 | u2 <;>
        simp [Run.tryCatch, Run.bind, remoteCall, hn, hd, hk, Run.emit, Run.throw, Run.pure,
          Conversation.member]
    obtain ⟨rest, hrest⟩ := hfirst
    refine ⟨rest, by rw [htrace, hrest], ?_⟩
    have hreq1 : ∀ e ∈ rest, isRequestOrReport e = true := fun e he =>
      hreq e (by rw [hrest]; exact List.mem_cons_of_mem _ he)
    exact (observations_of_requests rest hreq1).1
  · rw [htrace, newConversationRecords_append, hrec, List.append_nil]
  · intro conversation activities err hn hdl hact hd
    rw [htrace, htail1]
    unfold feedTranscript
    simp [Run.tryCatch, Run.bind, remoteCall, hn, hd, hdl, hact, Run.emit, Run.throw, Run.pure,
      Conversation.member, transcriptErrorLabel, deepLinkFeedMessage]
  · intro conversation err hn hcond hk
    rw [htrace, htail1]
    unfold feedTranscript
    rcases hcond with hdl | hact
    · rcases hact : (resolveProps thisProps arg).document.activities with _ | acts <;>
      simp [Run.tryCatch, Run.bind, remoteCall, hn, hk, hdl, Run.emit, Run.throw, Run.pure,
        Conversation.member, transcriptErrorLabel, diskFeedMessage]
    · rcases hdl : (resolveProps thisProps arg).document.deepLink <;>
      simp [Run.tryCatch, Run.bind, remoteCall, hn, hk, hact, Run.emit, Run.throw, Run.pure,
        Conversation.member, transcriptErrorLabel, diskFeedMessage]

/-- Witness for C7: a deep-link feed that is rejected with `boom` leaves the
invocation ending normally. -/
theorem startNewConversation_survives_failed_requests_witness :
    (startNewConversation deepLinkProps none sampleEnv
        { transcriptNew := Except.ok (some { conversationId := some "x" }),
          feedDeepLink := Except.error (Thrown.value "boom"),
          feedDisk := Except.ok () }).result = Except.ok () :=
  (startNewConversation_survives_failed_requests deepLinkProps none sampleEnv
    { transcriptNew := Except.ok (some { conversationId := some "x" }),
      feedDeepLink := Except.error (Thrown.value "boom"),
      feedDisk := Except.ok () } rfl).1

/-- C8: `handleExportClick` issues no request when the document has no
transport; otherwise it issues the single request
`emulator:save-transcript-to-file` whose only argument is the transport's
conversation id; in both cases it dispatches nothing to the store. -/
theorem handleExportClick_effects (thisProps : Props) :
    (thisProps.document.directLine = none → handleExportClick thisProps = []) ∧
    (∀ dl, thisProps.document.directLine = some dl →
      handleExportClick thisProps =
        [Effect.remoteCall "emulator:save-transcript-to-file" [Arg.text dl.conversationId]]) ∧
    dispatchedActions (handleExportClick thisProps) = [] := by
  unfold handleExportClick
  cases h : thisProps.document.directLine with
  | none => simp [dispatchedActions]
  | some dl => simp [dispatchedActions]

/-- Witness for C8: no request without a transport, one request keyed by the
transport's conversation id with one. -/
theorem handleExportClick_effects_witness :
    handleExportClick (sampleProps "a" none) = [] ∧
    handleExportClick (liveProps "a" none) =
      [Effect.remoteCall "emulator:save-transcript-to-file"
        [Arg.text (some "c0|livechat")]] :=
  ⟨(handleExportClick_effects (sampleProps "a" none)).1 rfl,
    (handleExportClick_effects (liveProps "a" none)).2.1
      { handle := 1, conversationId := some "c0|livechat" } rfl⟩

/-- C10, at the failing input: when the component shows document `a` and
receives props for document `b` without a transport, `componentWillReceiveProps`
invokes `startNewConversation(nextProps)`, whose first effect clears the log of
document `a` while the second clears the inspector objects of document `b`. -/
theorem startNewConversation_clearLog_targets_current_document :
    startCalls
        (componentWillReceiveProps (sampleProps "a" (some EmulatorMode.livechat))
          (sampleProps "b" (some EmulatorMode.livechat))) =
      [some (sampleProps "b" (some EmulatorMode.livechat))] ∧
    (startNewConversation (sampleProps "a" (some EmulatorMode.livechat))
        (some (sampleProps "b" (some EmulatorMode.livechat))) sampleEnv
        (okOutcomes "x")).trace.take 2 =
      [ Effect.storeDispatch (ChatAction.clearLog "a"),
        Effect.storeDispatch (ChatAction.setInspectorObjects "b" []) ] :=
  ⟨by decide, by rfl⟩

/-! ## Theorems: successive invocations -/

/-- The state after a concatenation of traces. -/
theorem applyEffects_append (state : RootState) (xs ys : List Effect) :
    applyEffects state (xs ++ ys) = applyEffects (applyEffects state xs) ys := by
  induction xs generalizing state with
  | nil => rfl
  | cons e es ih => cases e <;> simp [applyEffects, ih]

/-- Requests and reports leave the state as it is. -/
theorem applyEffects_of_requests (state : RootState) (t : List Effect)
    (h : ∀ e ∈ t, isRequestOrReport e = true) : applyEffects state t = state := by
  induction t with
  | nil => rfl
  | cons e es ih =>
    have he := h e (List.mem_cons_self e es)
    have ih1 := ih (fun x hx => h x (List.mem_cons_of_mem e hx))
    cases e <;> simp_all [isRequestOrReport, applyEffects]

/-- The state after the head of the start sequence: the record is committed
under `props.documentId`. -/
theorem applyEffects_startNewConversationHead (state : RootState) (thisProps : Props)
    (arg : Option Props) (env : Env) :
    applyEffects state (startNewConversationHead thisProps arg env) =
      chatReducer state
        (ChatAction.newConversation (resolveProps thisProps arg).documentId
          { conversationId := newConversationId (resolveProps thisProps arg) env,
            webChatStore := env.webChatStore,
            directLine := env.directLine,
            selectedActivity := env.selectedActivity,
            subscription := env.subscription }) := by
  cases hs : (resolveProps thisProps arg).document.subscription <;>
    cases hd : (resolveProps thisProps arg).document.directLine <;>
    simp [startNewConversationHead, initConversation, hs, hd, applyEffects, chatReducer,
      buildOptions]

/-- One click: it constructs the transport with the fresh identity, ends the
transport the document held, and leaves the document holding the new one. -/
theorem startOver_step (own : OwnProps) (w : World) (inv : Invocation) (document : Document)
    (hdoc : w.state.chats own.documentId = some document) :
    ∃ w1 t document1, startOver own w inv = some (w1, t) ∧
      constructedHandles t = [w.nextHandle + 3] ∧
      endedHandles t = document.transportHandle.toList ∧
      w1.nextHandle = w.nextHandle + 4 ∧
      w1.state.chats own.documentId = some document1 ∧
      document1.transportHandle = some (w.nextHandle + 3) := by
  have hprops : mapStateToProps w.state own =
      some { conversationId := document.conversationId, document := document,
             documentId := own.documentId, endpointId := document.endpointId,
             mode := own.mode } := by
    simp [mapStateToProps, hdoc]
  obtain ⟨tail, htrace, hreq, -, -⟩ :=
    startNewConversation_trace
      { conversationId := document.conversationId, document := document,
        documentId := own.documentId, endpointId := document.endpointId,
        mode := own.mode } none (w.env inv) inv.outcomes
  obtain ⟨-, -, hcon, hend, -, -⟩ := observations_of_requests tail hreq
  refine ⟨_, _,
    { document with
        conversationId := some (newConversationId
          { conversationId := document.conversationId, document := document,
            documentId := own.documentId, endpointId := document.endpointId,
            mode := own.mode } (w.env inv)),
        directLine := some (w.env inv).directLine,
        subscription := some (w.env inv).subscription },
    by simp only [startOver, hprops]; rfl, ?_, ?_, by rfl, ?_, ?_⟩
  · simp only [handleStartOverClick, htrace, constructedHandles, constructedTransports_append,
      hcon, constructedTransports_startNewConversationHead]
    simp [World.env]
  · simp only [handleStartOverClick, htrace, endedHandles, endedTransports_append, hend,
      endedTransports_startNewConversationHead]
    cases hd : document.directLine <;> simp [resolveProps, Document.transportHandle, hd]
  · simp only [handleStartOverClick, htrace, applyEffects_append,
      applyEffects_startNewConversationHead, applyEffects_of_requests _ tail hreq]
    simp [chatReducer, resolveProps, hdoc]
  · simp [Document.transportHandle, World.env]

/-- Constructed identities of a concatenation. -/
theorem constructedHandles_append (xs ys : List Effect) :
    constructedHandles (xs ++ ys) = constructedHandles xs ++ constructedHandles ys := by
  simp [constructedHandles, constructedTransports_append]

/-- Ended identities of a concatenation. -/
theorem endedHandles_append (xs ys : List Effect) :
    endedHandles (xs ++ ys) = endedHandles xs ++ endedHandles ys := by
  simp [endedHandles, endedTransports_append]

/-- One click keeps the invariant and constructs one more transport. -/
theorem startOver_invariant (own : OwnProps) (t0 : List Effect) (w : World)
    (inv : Invocation) (hinv : SessionInvariant own t0 w) :
    ∃ w1 t1, startOver own w inv = some (w1, t1) ∧
      SessionInvariant own (t0 ++ t1) w1 ∧
      (constructedHandles (t0 ++ t1)).length = (constructedHandles t0).length + 1 := by
  obtain ⟨document, hdoc, hcur, hcons, hend, hnodup, hlive, -⟩ := hinv
  obtain ⟨w1, t1, document1, hstep, hc1, he1, hn1, hdoc1, hcur1⟩ :=
    startOver_step own w inv document hdoc
  refine ⟨w1, t1, hstep, ⟨document1, hdoc1, ?_, ?_, ?_, ?_, ?_, ?_⟩, ?_⟩
  · intro h hh
    rw [hcur1] at hh
    injection hh with hh
    omega
  · intro h hh
    rw [constructedHandles_append, hc1, List.mem_append, List.mem_singleton] at hh
    rcases hh with hh | hh
    · have := hcons h hh
      omega
    · omega
  · intro h hh
    rw [endedHandles_append, he1, List.mem_append] at hh
    rcases hh with hh | hh
    · have := hend h hh
      omega
    · have := hcur h (by simpa [Option.mem_toList] using hh)
      omega
  · rw [constructedHandles_append, hc1]
    refine List.Nodup.append hnodup (List.nodup_singleton _) ?_
    intro h hh1 hh2
    rw [List.mem_singleton] at hh2
    have := hcons h hh1
    omega
  · intro h hh
    rw [constructedHandles_append, hc1, List.mem_append, List.mem_singleton] at hh
    rw [endedHandles_append, he1, List.mem_append, hcur1]
    rcases hh with hh | hh
    · have hlt := hcons h hh
      constructor
      · intro hnot
        exfalso
        have h1 : h ∉ endedHandles t0 := fun hm => hnot (Or.inl hm)
        have h2 := (hlive h hh).1 h1
        exact hnot (Or.inr (by simp [h2]))
      · intro heq
        injection heq with heq
        omega
    · subst hh
      constructor
      · intro _
        rfl
      · intro _ hmem
        rcases hmem with hmem | hmem
        · have := hend _ hmem
          omega
        · have := hcur _ (by simpa [Option.mem_toList] using hmem)
          omega
  · intro _
    exact ⟨w.nextHandle + 3, by simp [constructedHandles_append, hc1], hcur1⟩
  · simp [constructedHandles_append, hc1]

/-- Successive clicks all run, keep the invariant, and construct one transport
each. -/
theorem startOverAll_invariant (own : OwnProps) (invs : List Invocation) :
    ∀ (t0 : List Effect) (w : World), SessionInvariant own t0 w →
      ∃ w1 t, startOverAll own w invs = some (w1, t) ∧
        SessionInvariant own (t0 ++ t) w1 ∧
        (constructedHandles (t0 ++ t)).length = (constructedHandles t0).length + invs.length := by
  induction invs with
  | nil =>
    intro t0 w hinv
    exact ⟨w, [], rfl, by simpa using hinv, by simp⟩
  | cons inv invs ih =>
    intro t0 w hinv
    obtain ⟨w1, t1, hstep, hinv1, hlen1⟩ := startOver_invariant own t0 w inv hinv
    obtain ⟨w2, t2, hall, hinv2, hlen2⟩ := ih (t0 ++ t1) w1 hinv1
    refine ⟨w2, t1 ++ t2, ?_, ?_, ?_⟩
    · simp [startOverAll, hstep, hall]
    · rw [← List.append_assoc]
      exact hinv2
    · rw [← List.append_assoc, hlen2, hlen1, List.length_cons]
      omega

/-- C6: two or more successive invocations on one document all run; each
constructs one transport; at the end exactly one of the constructed transports
has not been ended, it is the one the document holds, and every other
constructed transport has been ended. -/
theorem startOverAll_one_live_transport (own : OwnProps) (w : World)
    (invs : List Invocation) (document : Document)
    (hdoc : w.state.chats own.documentId = some document)
    (hfresh : ∀ h, document.transportHandle = some h → h < w.nextHandle)
    (hlen : 2 ≤ invs.length) :
    ∃ w1 trace last document1,
      startOverAll own w invs = some (w1, trace) ∧
      (constructedHandles trace).length = invs.length ∧
      liveHandles trace = [last] ∧
      w1.state.chats own.documentId = some document1 ∧
      document1.transportHandle = some last ∧
      (∀ h ∈ constructedHandles trace, h ≠ last → h ∈ endedHandles trace) := by
  have hinit : SessionInvariant own [] w :=
    ⟨document, hdoc, hfresh, by simp [constructedHandles, constructedTransports],
      by simp [endedHandles, endedTransports],
      by simp [constructedHandles, constructedTransports],
      by simp [constructedHandles, constructedTransports],
      by simp [constructedHandles, constructedTransports]⟩
  obtain ⟨w1, t, hall, hinv, hcount⟩ := startOverAll_invariant own invs [] w hinit
  rw [List.nil_append] at hinv hcount
  obtain ⟨document1, hdoc1, -, -, -, hnodup, hlive, hheld⟩ := hinv
  have hne : constructedHandles t ≠ [] := by
    intro h0
    rw [h0] at hcount
    simp [constructedHandles, constructedTransports] at hcount
    omega
  obtain ⟨last, hmem, hlast⟩ := hheld hne
  refine ⟨w1, t, last, document1, hall, ?_, ?_, hdoc1, hlast, ?_⟩
  · simpa [constructedHandles, constructedTransports] using hcount
  · have hfilter : liveHandles t = (constructedHandles t).filter (fun h => h == last) := by
      unfold liveHandles
      apply List.filter_congr
      intro h hh
      have hiff := hlive h hh
      rw [hlast] at hiff
      by_cases hended : h ∈ endedHandles t
      · have hneq : h ≠ last := fun heq => (hiff.2 (by rw [heq])) hended
        simp [hended, hneq]
      · have heq : last = h := by
          have := hiff.1 hended
          injection this
        simp [hended, heq]
    rw [hfilter, List.filter_beq, List.count_eq_one_of_mem hnodup hmem]
    rfl
  · intro h hh hneq
    by_contra hnot
    have := (hlive h hh).1 hnot
    rw [hlast] at this
    injection this with this
    exact hneq this.symm

/-- Witness for C6: two clicks on Start Over on a live document. -/
theorem startOverAll_one_live_transport_witness :
    ∃ w1 trace last document1,
      startOverAll { documentId := "a", mode := some EmulatorMode.livechat } sampleWorld
          [sampleInvocation "t1", sampleInvocation "t2"] = some (w1, trace) ∧
      (constructedHandles trace).length = 2 ∧
      liveHandles trace = [last] ∧
      w1.state.chats "a" = some document1 ∧
      document1.transportHandle = some last ∧
      (∀ h ∈ constructedHandles trace, h ≠ last → h ∈ endedHandles trace) :=
  startOverAll_one_live_transport { documentId := "a", mode := some EmulatorMode.livechat }
    sampleWorld [sampleInvocation "t1", sampleInvocation "t2"] (liveProps "a" none).document
    rfl (by decide) (by decide)

/-! ## Theorems: the session token -/

/-- The code of `Char.ofNat n` for a valid `n`. -/
theorem toNat_ofNat_valid (n : Nat) (h : n.isValidChar) : (Char.ofNat n).toNat = n := by
  unfold Char.ofNat
  rw [dif_pos h]
  rfl

/-- The code of `Char.ofNat n` for a small `n`. -/
theorem toNat_ofNat_small (n : Nat) (h : n < 55296) : (Char.ofNat n).toNat = n :=
  toNat_ofNat_valid n (Or.inl h)

/-- The code of a character is a Unicode scalar value. -/
theorem toNat_valid (c : Char) : c.toNat < 55296 ∨ (57343 < c.toNat ∧ c.toNat < 1114112) :=
  c.valid

/-- Reading back the UTF-8 bytes of one character. -/
theorem utf8DecodeChar_utf8EncodeChar (c : Char) (rest : List Nat) :
    Buffer.utf8DecodeChar (Buffer.utf8EncodeChar c ++ rest) = some (c, rest) := by
  have hv := toNat_valid c
  unfold Buffer.utf8EncodeChar
  simp only []
  by_cases h1 : c.toNat < 128
  · rw [if_pos h1]
    simp [Buffer.utf8DecodeChar, h1]
  · rw [if_neg h1]
    by_cases h2 : c.toNat < 2048
    · rw [if_pos h2]
      have a1 : ¬ (192 + c.toNat / 64 < 128) := by omega
      have a2 : ¬ (192 + c.toNat / 64 < 192) := by omega
      have a3 : 192 + c.toNat / 64 < 224 := by omega
      have a4 : c.toNat % 64 < 64 := by omega
      have e : c.toNat / 64 * 64 + c.toNat % 64 = c.toNat := by omega
      simp [Buffer.utf8DecodeChar, Buffer.isContinuation, a1, a2, a3, a4, e]
      omega
    · rw [if_neg h2]
      by_cases h3 : c.toNat < 65536
      · rw [if_pos h3]
        have a1 : ¬ (224 + c.toNat / 4096 < 128) := by omega
        have a2 : ¬ (224 + c.toNat / 4096 < 192) := by omega
        have a3 : ¬ (224 + c.toNat / 4096 < 224) := by omega
        have a4 : 224 + c.toNat / 4096 < 240 := by omega
        have a5 : c.toNat / 64 % 64 < 64 := by omega
        have a6 : c.toNat % 64 < 64 := by omega
        have e : c.toNat / 4096 * 4096 + c.toNat / 64 % 64 * 64 + c.toNat % 64 = c.toNat := by
          omega
        simp [Buffer.utf8DecodeChar, Buffer.isContinuation, a1, a2, a3, a4, a5, a6, e]
        omega
      · rw [if_neg h3]
        have a1 : ¬ (240 + c.toNat / 262144 < 128) := by omega
        have a2 : ¬ (240 + c.toNat / 262144 < 192) := by omega
        have a3 : ¬ (240 + c.toNat / 262144 < 224) := by omega
        have a4 : ¬ (240 + c.toNat / 262144 < 240) := by omega
        have a5 : 240 + c.toNat / 262144 < 248 := by omega
        have a6 : c.toNat / 4096 % 64 < 64 := by omega
        have a7 : c.toNat / 64 % 64 < 64 := by omega
        have a8 : c.toNat % 64 < 64 := by omega
        have e : c.toNat / 262144 * 262144 + c.toNat / 4096 % 64 * 4096
            + c.toNat / 64 % 64 * 64 + c.toNat % 64 = c.toNat := by
          omega
        simp [Buffer.utf8DecodeChar, Buffer.isContinuation, a1, a2, a3, a4, a5, a6, a7, a8, e]
        omega

/-- The UTF-8 bytes of a character are one to four bytes. -/
theorem utf8EncodeChar_length_pos (c : Char) : 0 < (Buffer.utf8EncodeChar c).length := by
  unfold Buffer.utf8EncodeChar
  simp only []
  split_ifs <;> simp

/-- The UTF-8 bytes of a character are bytes. -/
theorem utf8EncodeChar_lt (c : Char) : ∀ b ∈ Buffer.utf8EncodeChar c, b < 256 := by
  have hv := toNat_valid c
  unfold Buffer.utf8EncodeChar
  simp only []
  split_ifs <;> simp <;> omega

/-- The bytes of a text are bytes. -/
theorem fromUtf8_lt (cs : List Char) : ∀ b ∈ Buffer.fromUtf8 cs, b < 256 := by
  induction cs with
  | nil => simp [Buffer.fromUtf8]
  | cons c cs ih =>
    intro b hb
    rw [Buffer.fromUtf8, List.mem_append] at hb
    rcases hb with hb | hb
    · exact utf8EncodeChar_lt c b hb
    · exact ih b hb

/-- The decoding loop reads back the bytes of a text, given enough fuel. -/
theorem toStringUtf8Loop_fromUtf8 (cs : List Char) :
    ∀ fuel, (Buffer.fromUtf8 cs).length ≤ fuel →
      Buffer.toStringUtf8Loop fuel (Buffer.fromUtf8 cs) = some cs := by
  induction cs with
  | nil =>
    intro fuel _
    cases fuel <;> rfl
  | cons c cs ih =>
    intro fuel hfuel
    have hpos := utf8EncodeChar_length_pos c
    rw [Buffer.fromUtf8, List.length_append] at hfuel
    obtain ⟨b, bs, hbs⟩ : ∃ b bs, Buffer.utf8EncodeChar c ++ Buffer.fromUtf8 cs = b :: bs := by
      cases h : Buffer.utf8EncodeChar c ++ Buffer.fromUtf8 cs with
      | nil =>
        have := congrArg List.length h
        rw [List.length_append, List.length_nil] at this
        omega
      | cons b bs => exact ⟨b, bs, rfl⟩
    cases fuel with
    | zero => omega
    | succ fuel =>
      have hdec := utf8DecodeChar_utf8EncodeChar c (Buffer.fromUtf8 cs)
      rw [Buffer.fromUtf8, hbs, Buffer.toStringUtf8Loop, ← hbs, hdec]
      simp only []
      rw [ih fuel (by omega)]

/-- Reading back the UTF-8 bytes of a text. -/
theorem toStringUtf8_fromUtf8 (cs : List Char) :
    Buffer.toStringUtf8 (Buffer.fromUtf8 cs) = some cs :=
  toStringUtf8Loop_fromUtf8 cs _ (Nat.le_refl _)

/-- Characters with one code are equal. -/
theorem char_eq_of_toNat_eq (c d : Char) (h : c.toNat = d.toNat) : c = d := by
  rw [← Char.ofNat_toNat c, ← Char.ofNat_toNat d, h]

/-- The code of the character of a sextet. -/
theorem base64Char_toNat (n : Nat) (h : n < 64) :
    (Buffer.base64Char n).toNat =
      if n < 26 then 65 + n else if n < 52 then 71 + n else if n < 62 then n - 4
      else if n = 62 then 43 else 47 := by
  unfold Buffer.base64Char
  split_ifs <;> apply toNat_ofNat_small <;> omega

/-- The code of the padding character. -/
theorem padChar_toNat : Buffer.padChar.toNat = 61 :=
  toNat_ofNat_small 61 (by omega)

/-- The value of the character of a sextet is the sextet. -/
theorem base64Value_base64Char (n : Nat) (h : n < 64) :
    Buffer.base64Value (Buffer.base64Char n) = some n := by
  have ht := base64Char_toNat n h
  unfold Buffer.base64Value
  simp only []
  by_cases h1 : n < 26
  · rw [if_pos h1] at ht
    rw [ht, if_pos (by simp; omega)]
    simp
  · rw [if_neg h1] at ht
    by_cases h2 : n < 52
    · rw [if_pos h2] at ht
      rw [ht, if_neg (by simp; omega), if_pos (by simp; omega)]
      simp
    · rw [if_neg h2] at ht
      by_cases h3 : n < 62
      · rw [if_pos h3] at ht
        rw [ht, if_neg (by simp; omega), if_neg (by simp; omega), if_pos (by simp; omega)]
        simp
        omega
      · rw [if_neg h3] at ht
        by_cases h4 : n = 62
        · rw [if_pos h4] at ht
          rw [ht, h4]
          rfl
        · rw [if_neg h4] at ht
          have h5 : n = 63 := by omega
          rw [ht, h5]
          rfl

/-- The character of a sextet is not the padding character. -/
theorem base64Char_ne_padChar (n : Nat) (h : n < 64) : Buffer.base64Char n ≠ Buffer.padChar := by
  intro heq
  have h1 := congrArg Char.toNat heq
  rw [base64Char_toNat n h, padChar_toNat] at h1
  split_ifs at h1 <;> omega

/-- Reading back the base64 text of a byte list. -/
theorem fromBase64_toStringBase64 (bytes : List Nat) :
    (∀ b ∈ bytes, b < 256) →
      Buffer.fromBase64 (Buffer.toStringBase64 bytes) = some bytes := by
  induction bytes using Buffer.toStringBase64.induct with
  | case1 => intro _; rfl
  | case2 a =>
    intro h
    have ha : a < 256 := h a (by simp)
    simp only [Buffer.toStringBase64, Buffer.fromBase64,
      base64Value_base64Char (a / 4) (by omega),
      base64Value_base64Char (a % 4 * 16) (by omega)]
    simp
    omega
  | case3 a b =>
    intro h
    have ha : a < 256 := h a (by simp)
    have hb : b < 256 := h b (by simp)
    have hne := base64Char_ne_padChar (b % 16 * 4) (by omega)
    simp only [Buffer.toStringBase64, Buffer.fromBase64,
      base64Value_base64Char (a / 4) (by omega),
      base64Value_base64Char (a % 4 * 16 + b / 16) (by omega),
      base64Value_base64Char (b % 16 * 4) (by omega)]
    simp [hne]
    omega
  | case4 a b c rest ih =>
    intro h
    have ha : a < 256 := h a (by simp)
    have hb : b < 256 := h b (by simp)
    have hc : c < 256 := h c (by simp)
    have hrest := ih (fun x hx => h x (by simp [hx]))
    have hne2 := base64Char_ne_padChar (b % 16 * 4 + c / 64) (by omega)
    have hne3 := base64Char_ne_padChar (c % 64) (by omega)
    simp only [Buffer.toStringBase64, Buffer.fromBase64,
      base64Value_base64Char (a / 4) (by omega),
      base64Value_base64Char (a % 4 * 16 + b / 16) (by omega),
      base64Value_base64Char (b % 16 * 4 + c / 64) (by omega),
      base64Value_base64Char (c % 64) (by omega), hrest]
    simp [hne2, hne3]
    omega

/-- The base64 text of a byte list is a body of alphabet characters followed by
at most two padding characters, four characters per group. -/
theorem toStringBase64_shape (bytes : List Nat) :
    (∀ b ∈ bytes, b < 256) →
      ∃ body p, Buffer.toStringBase64 bytes = body ++ List.replicate p Buffer.padChar ∧
        p ≤ 2 ∧ (body.length + p) % 4 = 0 ∧
        ∀ c ∈ body, ∃ k, k < 64 ∧ c = Buffer.base64Char k := by
  induction bytes using Buffer.toStringBase64.induct with
  | case1 => intro _; exact ⟨[], 0, rfl, by omega, rfl, by simp⟩
  | case2 a =>
    intro h
    have ha : a < 256 := h a (by simp)
    refine ⟨[Buffer.base64Char (a / 4), Buffer.base64Char (a % 4 * 16)], 2, rfl, by omega,
      by simp, ?_⟩
    intro c hc
    simp only [List.mem_cons, List.mem_singleton, List.mem_nil_iff, or_false] at hc
    rcases hc with hc | hc
    · exact ⟨a / 4, by omega, hc⟩
    · exact ⟨a % 4 * 16, by omega, hc⟩
  | case3 a b =>
    intro h
    have ha : a < 256 := h a (by simp)
    have hb : b < 256 := h b (by simp)
    refine ⟨[Buffer.base64Char (a / 4), Buffer.base64Char (a % 4 * 16 + b / 16),
      Buffer.base64Char (b % 16 * 4)], 1, rfl, by omega, by simp, ?_⟩
    intro c hc
    simp only [List.mem_cons, List.mem_singleton, List.mem_nil_iff, or_false] at hc
    rcases hc with hc | hc | hc
    · exact ⟨a / 4, by omega, hc⟩
    · exact ⟨a % 4 * 16 + b / 16, by omega, hc⟩
    · exact ⟨b % 16 * 4, by omega, hc⟩
  | case4 a b c rest ih =>
    intro h
    have ha : a < 256 := h a (by simp)
    have hb : b < 256 := h b (by simp)
    have hc : c < 256 := h c (by simp)
    obtain ⟨body, p, hshape, hp, hlen, hbody⟩ := ih (fun x hx => h x (by simp [hx]))
    refine ⟨Buffer.base64Char (a / 4) :: Buffer.base64Char (a % 4 * 16 + b / 16)
      :: Buffer.base64Char (b % 16 * 4 + c / 64) :: Buffer.base64Char (c % 64) :: body, p,
      ?_, hp, ?_, ?_⟩
    · simp [Buffer.toStringBase64, hshape]
    · simp only [List.length_cons]
      omega
    · intro x hx
      simp only [List.mem_cons] at hx
      rcases hx with hx | hx | hx | hx | hx
      · exact ⟨a / 4, by omega, hx⟩
      · exact ⟨a % 4 * 16 + b / 16, by omega, hx⟩
      · exact ⟨b % 16 * 4 + c / 64, by omega, hx⟩
      · exact ⟨c % 64, by omega, hx⟩
      · exact hbody x hx

/-- On an alphabet character the two replacements of `toBase64` undo the two
replacements of `fromBase64`. -/
theorem urlReplacements_inverse (k : Nat) (h : k < 64) :
    Base64Url.underscoreToSlash (Base64Url.minusToPlus
      (Base64Url.slashToUnderscore (Base64Url.plusToMinus (Buffer.base64Char k)))) =
      Buffer.base64Char k := by
  have ht := base64Char_toNat k h
  have e45 : (Char.ofNat 45).toNat = 45 := toNat_ofNat_small 45 (by omega)
  have e95 : (Char.ofNat 95).toNat = 95 := toNat_ofNat_small 95 (by omega)
  have e43 : (Char.ofNat 43).toNat = 43 := toNat_ofNat_small 43 (by omega)
  have e47 : (Char.ofNat 47).toNat = 47 := toNat_ofNat_small 47 (by omega)
  apply char_eq_of_toNat_eq
  unfold Base64Url.underscoreToSlash Base64Url.minusToPlus Base64Url.slashToUnderscore
    Base64Url.plusToMinus
  by_cases h43 : (Buffer.base64Char k).toNat = 43
  · simp [h43, e45, e43]
  · by_cases h47 : (Buffer.base64Char k).toNat = 47
    · simp [h47, e95, e47]
    · have h45 : (Buffer.base64Char k).toNat ≠ 45 := by
        rw [ht]; split_ifs <;> omega
      have h95 : (Buffer.base64Char k).toNat ≠ 95 := by
        rw [ht]; split_ifs <;> omega
      simp [h43, h47, h45, h95]

/-- The replacements of `fromBase64` make an alphabet character URL-safe. -/
theorem urlReplacements_safe (k : Nat) (h : k < 64) :
    Base64Url.isUrlSafe
      (Base64Url.slashToUnderscore (Base64Url.plusToMinus (Buffer.base64Char k))) = true := by
  have ht := base64Char_toNat k h
  have e45 : (Char.ofNat 45).toNat = 45 := toNat_ofNat_small 45 (by omega)
  have e95 : (Char.ofNat 95).toNat = 95 := toNat_ofNat_small 95 (by omega)
  unfold Base64Url.isUrlSafe Base64Url.slashToUnderscore Base64Url.plusToMinus
  by_cases h43 : (Buffer.base64Char k).toNat = 43
  · simp [h43, e45]
  · by_cases h47 : (Buffer.base64Char k).toNat = 47
    · simp [h43, h47, e95]
    · simp only [if_neg h43, if_neg h47]
      rw [ht] at h43 h47 ⊢
      split_ifs at h43 h47 ⊢ <;> simp <;> omega

/-- The replacements of `toBase64` leave the padding character as it is. -/
theorem urlReplacements_padChar :
    Base64Url.underscoreToSlash (Base64Url.minusToPlus Buffer.padChar) = Buffer.padChar := by
  have hp := padChar_toNat
  simp [Base64Url.underscoreToSlash, Base64Url.minusToPlus, hp]

/-- The function `padString` restores the padding that was removed. -/
theorem padString_restores (body : List Char) (p : Nat) (hp : p ≤ 2)
    (hlen : (body.length + p) % 4 = 0) :
    Base64Url.padString body = body ++ List.replicate p Buffer.padChar := by
  unfold Base64Url.padString
  simp only []
  by_cases h0 : body.length % 4 = 0
  · have hp0 : p = 0 := by omega
    rw [if_pos h0, hp0]
    simp
  · have hp4 : 4 - body.length % 4 = p := by omega
    rw [if_neg h0, hp4]

/-- The function `fromBase64` on the base64 text of a byte list, in terms of
the shape of that text. -/
theorem fromBase64_of_shape (body : List Char) (p : Nat)
    (hbody : ∀ c ∈ body, ∃ k, k < 64 ∧ c = Buffer.base64Char k) :
    Base64Url.fromBase64 (body ++ List.replicate p Buffer.padChar) =
      (body.map Base64Url.plusToMinus).map Base64Url.slashToUnderscore := by
  unfold Base64Url.fromBase64
  have h1 : body.filter (fun c => c.toNat != 61) = body := by
    rw [List.filter_eq_self]
    intro c hc
    obtain ⟨k, hk, rfl⟩ := hbody c hc
    have hne := base64Char_ne_padChar k hk
    have : (Buffer.base64Char k).toNat ≠ 61 := by
      intro h61
      exact hne (char_eq_of_toNat_eq _ _ (by rw [h61, padChar_toNat]))
    simp [this]
  have h2 : (List.replicate p Buffer.padChar).filter (fun c => c.toNat != 61) = [] := by
    rw [List.filter_eq_nil_iff]
    intro c hc
    rw [List.eq_of_mem_replicate hc]
    simp [padChar_toNat]
  rw [List.filter_append, h1, h2, List.append_nil]

/-- The function `toBase64` undoes `fromBase64` on the base64 text of a byte
list. -/
theorem toBase64_fromBase64 (bytes : List Nat) (h : ∀ b ∈ bytes, b < 256) :
    Base64Url.toBase64 (Base64Url.fromBase64 (Buffer.toStringBase64 bytes)) =
      Buffer.toStringBase64 bytes := by
  obtain ⟨body, p, hshape, hp, hlen, hbody⟩ := toStringBase64_shape bytes h
  rw [hshape, fromBase64_of_shape body p hbody]
  unfold Base64Url.toBase64
  rw [padString_restores _ p hp (by simpa using hlen)]
  simp only [List.map_append, List.map_map, List.map_replicate, Function.comp_apply,
    urlReplacements_padChar]
  congr 1
  conv_rhs => rw [← List.map_id body]
  apply List.map_congr_left
  intro c hc
  obtain ⟨k, hk, rfl⟩ := hbody c hc
  simpa using urlReplacements_inverse k hk

/-- Every character of the URL-safe base64 text of a byte list is URL-safe. -/
theorem fromBase64_urlSafe (bytes : List Nat) (h : ∀ b ∈ bytes, b < 256) :
    ∀ c ∈ Base64Url.fromBase64 (Buffer.toStringBase64 bytes), Base64Url.isUrlSafe c = true := by
  obtain ⟨body, p, hshape, -, -, hbody⟩ := toStringBase64_shape bytes h
  rw [hshape, fromBase64_of_shape body p hbody]
  intro c hc
  simp only [List.map_map, List.mem_map, Function.comp_apply] at hc
  obtain ⟨x, hx, rfl⟩ := hc
  obtain ⟨k, hk, rfl⟩ := hbody x hx
  exact urlReplacements_safe k hk

/-- Decoding an encoded text gives the text back. -/
theorem decode_encode (input : String) :
    Base64Url.decode (Base64Url.encode input) = some input := by
  unfold Base64Url.decode Base64Url.encode
  simp only []
  rw [toBase64_fromBase64 _ (fromUtf8_lt input.data),
    fromBase64_toStringBase64 _ (fromUtf8_lt input.data)]
  simp only []
  rw [toStringUtf8_fromUtf8]
  rfl

/-- An encoded text holds URL-safe characters only. -/
theorem encode_urlSafe (input : String) :
    ∀ c ∈ (Base64Url.encode input).data, Base64Url.isUrlSafe c = true :=
  fromBase64_urlSafe _ (fromUtf8_lt input.data)

/-- The code of the quotation mark. -/
theorem quoteMark_toNat : JSON.quoteMark.toNat = 34 := toNat_ofNat_small 34 (by omega)

/-- The code of the reverse solidus. -/
theorem backslash_toNat : JSON.backslash.toNat = 92 := toNat_ofNat_small 92 (by omega)

/-- The code of a hexadecimal digit. -/
theorem hexDigit_toNat (k : Nat) (h : k < 16) :
    (JSON.hexDigit k).toNat = if k < 10 then 48 + k else 87 + k := by
  unfold JSON.hexDigit
  split_ifs <;> apply toNat_ofNat_small <;> omega

/-- The value of a hexadecimal digit. -/
theorem hexValue_hexDigit (k : Nat) (h : k < 16) :
    JSON.hexValue (JSON.hexDigit k) = some k := by
  have ht := hexDigit_toNat k h
  unfold JSON.hexValue
  simp only []
  by_cases h1 : k < 10
  · rw [if_pos h1] at ht
    rw [ht, if_pos (by simp; omega)]
    simp
  · rw [if_neg h1] at ht
    rw [ht, if_neg (by simp; omega), if_pos (by simp; omega)]
    simp

/-- The value of the digit zero. -/
theorem hexValue_zero : JSON.hexValue (Char.ofNat 48) = some 0 := by
  have := hexValue_hexDigit 0 (by omega)
  simpa [JSON.hexDigit] using this

/-- Reading back the escape of one character. -/
theorem unescapeChar_quoteChar (c : Char) (rest : List Char) :
    JSON.unescapeChar (JSON.quoteChar c ++ rest) = some (c, rest) := by
  have hq := quoteMark_toNat
  have hb := backslash_toNat
  have e98 : (Char.ofNat 98).toNat = 98 := toNat_ofNat_small 98 (by omega)
  have e102 : (Char.ofNat 102).toNat = 102 := toNat_ofNat_small 102 (by omega)
  have e110 : (Char.ofNat 110).toNat = 110 := toNat_ofNat_small 110 (by omega)
  have e114 : (Char.ofNat 114).toNat = 114 := toNat_ofNat_small 114 (by omega)
  have e116 : (Char.ofNat 116).toNat = 116 := toNat_ofNat_small 116 (by omega)
  have e117 : (Char.ofNat 117).toNat = 117 := toNat_ofNat_small 117 (by omega)
  unfold JSON.quoteChar
  simp only []
  by_cases h34 : c.toNat = 34
  · rw [if_pos h34]
    simp only [List.cons_append, List.nil_append, JSON.unescapeChar, hb, hq, if_true]
    rw [char_eq_of_toNat_eq JSON.quoteMark c (by rw [hq, h34])]
  · rw [if_neg h34]
    by_cases h92 : c.toNat = 92
    · rw [if_pos h92]
      simp [JSON.unescapeChar, hb]
      exact char_eq_of_toNat_eq _ _ (by rw [hb, h92])
    · rw [if_neg h92]
      by_cases h8 : c.toNat = 8
      · rw [if_pos h8]
        simp [JSON.unescapeChar, hb, e98]
        rw [← h8, Char.ofNat_toNat]
      · rw [if_neg h8]
        by_cases h12 : c.toNat = 12
        · rw [if_pos h12]
          simp [JSON.unescapeChar, hb, e102]
          rw [← h12, Char.ofNat_toNat]
        · rw [if_neg h12]
          by_cases h10 : c.toNat = 10
          · rw [if_pos h10]
            simp [JSON.unescapeChar, hb, e110]
            rw [← h10, Char.ofNat_toNat]
          · rw [if_neg h10]
            by_cases h13 : c.toNat = 13
            · rw [if_pos h13]
              simp [JSON.unescapeChar, hb, e114]
              rw [← h13, Char.ofNat_toNat]
            · rw [if_neg h13]
              by_cases h9 : c.toNat = 9
              · rw [if_pos h9]
                simp [JSON.unescapeChar, hb, e116]
                rw [← h9, Char.ofNat_toNat]
              · rw [if_neg h9]
                by_cases h32 : c.toNat < 32
                · rw [if_pos h32]
                  have v1 := hexValue_hexDigit (c.toNat / 16) (by omega)
                  have v2 := hexValue_hexDigit (c.toNat % 16) (by omega)
                  have e : c.toNat / 16 * 16 + c.toNat % 16 = c.toNat := by omega
                  simp [JSON.unescapeChar, hb, e117, hexValue_zero, v1, v2, e]
                  omega
                · rw [if_neg h32]
                  simp [JSON.unescapeChar, h92, h32]

/-- The escape of a character starts with a character that is not the
quotation mark. -/
theorem quoteChar_head (c : Char) :
    ∃ x xs, JSON.quoteChar c = x :: xs ∧ x.toNat ≠ 34 := by
  have hb := backslash_toNat
  unfold JSON.quoteChar
  simp only []
  split_ifs with h34
  all_goals first
    | exact ⟨_, _, rfl, by rw [hb]; omega⟩
    | exact ⟨_, _, rfl, h34⟩

/-- The escaped content of a string is at least as long as the string. -/
theorem quoteBody_length (s : List Char) : s.length ≤ (JSON.quoteBody s).length := by
  induction s with
  | nil => simp [JSON.quoteBody]
  | cons c s ih =>
    obtain ⟨x, xs, hx, -⟩ := quoteChar_head c
    rw [JSON.quoteBody, List.length_append, hx, List.length_cons, List.length_cons]
    omega

/-- Reading back the escaped content of a string, given enough fuel. -/
theorem parseStringBody_quoteBody (s : List Char) (rest : List Char) :
    ∀ fuel, s.length < fuel →
      JSON.parseStringBody fuel (JSON.quoteBody s ++ JSON.quoteMark :: rest) = some (s, rest) := by
  induction s with
  | nil =>
    intro fuel hfuel
    cases fuel with
    | zero => omega
    | succ fuel => simp [JSON.quoteBody, JSON.parseStringBody, quoteMark_toNat]
  | cons c s ih =>
    intro fuel hfuel
    cases fuel with
    | zero => omega
    | succ fuel =>
      obtain ⟨x, xs, hx, hx34⟩ := quoteChar_head c
      have hdec := unescapeChar_quoteChar c (JSON.quoteBody s ++ JSON.quoteMark :: rest)
      rw [hx] at hdec
      rw [JSON.quoteBody, List.append_assoc, hx, List.cons_append, JSON.parseStringBody,
        if_neg hx34]
      rw [List.cons_append] at hdec
      rw [hdec]
      simp only []
      rw [ih fuel (by simpa using hfuel)]

/-- Reading back a quoted string. -/
theorem parseString_quoteString (s : String) (rest : List Char) :
    JSON.parseString (JSON.quoteString s ++ rest) = some (s, rest) := by
  have hlen := quoteBody_length s.data
  unfold JSON.quoteString
  rw [List.cons_append, JSON.parseString, if_pos quoteMark_toNat, List.append_assoc,
    List.singleton_append,
    parseStringBody_quoteBody s.data rest _
      (by rw [List.length_append, List.length_cons]; omega)]

/-- Reading back one member. -/
theorem parseMember_stringifyMember (m : String × String) (rest : List Char) :
    JSON.parseMember (JSON.stringifyMember m ++ rest) = some (m, rest) := by
  have e58 : (Char.ofNat 58).toNat = 58 := toNat_ofNat_small 58 (by omega)
  unfold JSON.stringifyMember JSON.parseMember
  rw [List.append_assoc, parseString_quoteString]
  simp only [List.cons_append, e58, if_true]
  rw [parseString_quoteString]

/-- A member is written with at least one character, and starts with the
quotation mark. -/
theorem stringifyMember_head (m : String × String) :
    ∃ xs, JSON.stringifyMember m = JSON.quoteMark :: xs ∧ 0 < xs.length := by
  unfold JSON.stringifyMember JSON.quoteString
  exact ⟨_, rfl, by simp⟩

/-- Members are written with at least one character each. -/
theorem stringifyMembers_length (ms : List (String × String)) :
    ms.length ≤ (JSON.stringifyMembers ms).length := by
  induction ms using JSON.stringifyMembers.induct with
  | case1 => simp [JSON.stringifyMembers]
  | case2 m =>
    obtain ⟨xs, hxs, hpos⟩ := stringifyMember_head m
    simp [JSON.stringifyMembers, hxs]
  | case3 m m2 ms ih =>
    simp only [JSON.stringifyMembers, List.length_append, List.length_cons] at ih ⊢
    omega

/-- Reading back the members of an object, given enough fuel. -/
theorem parseMembers_stringifyMembers (ms : List (String × String)) :
    ∀ (m : String × String) fuel, ms.length < fuel →
      JSON.parseMembers fuel (JSON.stringifyMembers (m :: ms) ++ [Char.ofNat 125]) =
        some (m :: ms) := by
  have e125 : (Char.ofNat 125).toNat = 125 := toNat_ofNat_small 125 (by omega)
  have e44 : (Char.ofNat 44).toNat = 44 := toNat_ofNat_small 44 (by omega)
  induction ms with
  | nil =>
    intro m fuel hfuel
    cases fuel with
    | zero => omega
    | succ fuel =>
      simp [JSON.stringifyMembers, JSON.parseMembers, parseMember_stringifyMember, e125]
  | cons m2 ms ih =>
    intro m fuel hfuel
    cases fuel with
    | zero => omega
    | succ fuel =>
      rw [JSON.stringifyMembers, List.append_assoc, JSON.parseMembers,
        parseMember_stringifyMember]
      simp only [List.cons_append, e44]
      rw [ih m2 fuel (by simpa using hfuel)]
      simp

/-- Parsing a serialized object gives its members back. -/
theorem parse_stringify (ms : List (String × String)) :
    JSON.parse (JSON.stringify ms) = some ms := by
  have e123 : (Char.ofNat 123).toNat = 123 := toNat_ofNat_small 123 (by omega)
  have e125 : (Char.ofNat 125).toNat = 125 := toNat_ofNat_small 125 (by omega)
  cases ms with
  | nil => simp [JSON.parse, JSON.stringify, JSON.stringifyMembers, e123, e125]
  | cons m ms =>
    have hlen := stringifyMembers_length (m :: ms)
    have hparse := parseMembers_stringifyMembers ms m
      (JSON.stringifyMembers (m :: ms) ++ [Char.ofNat 125]).length
      (by rw [List.length_append, List.length_singleton, List.length_cons] at *; omega)
    obtain ⟨x, y, zs, hshape⟩ :
        ∃ x y zs, JSON.stringifyMembers (m :: ms) ++ [Char.ofNat 125] = x :: y :: zs := by
      cases h : JSON.stringifyMembers (m :: ms) with
      | nil =>
        rw [h, List.length_nil, List.length_cons] at hlen
        omega
      | cons x xs =>
        cases xs with
        | nil => exact ⟨x, Char.ofNat 125, [], rfl⟩
        | cons y ys => exact ⟨x, y, ys ++ [Char.ofNat 125], rfl⟩
    rw [hshape] at hparse
    simp only [JSON.parse, JSON.stringify, e123, if_true, hshape]
    exact hparse

/-- Reading the properties of the written members gives the options back. -/
theorem ofMembers_members (options : Options) :
    Options.ofMembers options.members = some options := by
  rcases options with ⟨cid, mode, endpoint⟩
  cases mode <;> cases endpoint <;>
    simp [Options.members, Options.ofMembers, getProperty, List.lookup]

/-- C9: for every options object, decoding the session token that
`initConversation` makes of it (URL-safe base64 decoding, then JSON parsing)
yields the object, and every character of the token is URL-safe. -/
theorem decodeOptions_encodedOptions (options : Options) :
    decodeOptions (encodedOptions options) = some options ∧
    ∀ c ∈ (encodedOptions options).data, Base64Url.isUrlSafe c = true := by
  refine ⟨?_, encode_urlSafe _⟩
  unfold decodeOptions encodedOptions
  rw [decode_encode]
  simp only []
  rw [parse_stringify]
  exact ofMembers_members options

/-! ## Theorems: the ping -/

/-- The head of the start sequence dispatches the two clearing actions and the
`newConversation` record, in this order. -/
theorem dispatchedActions_startNewConversationHead (thisProps : Props)
    (arg : Option Props) (env : Env) :
    dispatchedActions (startNewConversationHead thisProps arg env) =
      [ ChatAction.clearLog thisProps.document.documentId,
        ChatAction.setInspectorObjects (resolveProps thisProps arg).document.documentId [],
        ChatAction.newConversation (resolveProps thisProps arg).documentId
          { conversationId := newConversationId (resolveProps thisProps arg) env,
            webChatStore := env.webChatStore,
            directLine := env.directLine,
            selectedActivity := env.selectedActivity,
            subscription := env.subscription } ] := by
  cases hs : (resolveProps thisProps arg).document.subscription <;>
    cases hd : (resolveProps thisProps arg).document.directLine <;>
    simp [startNewConversationHead, initConversation, hs, hd, dispatchedActions, buildOptions]

/-- C11: `componentWillReceiveProps` dispatches `pingDocument` exactly once, with
the next document's id, when the previous and the next document id differ, and
not at all when they are equal; the pings are the same whether or not the next
document has a transport, which is what decides the start of a conversation;
and an invocation of `startNewConversation` dispatches no ping of its own. -/
theorem componentWillReceiveProps_pingCalls (thisProps nextProps : Props) :
    (thisProps.document.documentId ≠ nextProps.document.documentId →
      pingCalls (componentWillReceiveProps thisProps nextProps) =
        [nextProps.document.documentId]) ∧
    (thisProps.document.documentId = nextProps.document.documentId →
      pingCalls (componentWillReceiveProps thisProps nextProps) = []) ∧
    (∀ directLine : Option DirectLine,
      pingCalls (componentWillReceiveProps thisProps
          { nextProps with document := { nextProps.document with directLine := directLine } }) =
        pingCalls (componentWillReceiveProps thisProps nextProps)) ∧
    (∀ (arg : Option Props) (env : Env) (outcomes : RemoteOutcomes),
      pingedDocuments
        (dispatchedActions (startNewConversation thisProps arg env outcomes).trace) = []) := by
  refine ⟨?_, ?_, ?_, ?_⟩
  · intro hid
    unfold componentWillReceiveProps
    cases hd : nextProps.document.directLine <;>
      simp [hid, pingCalls, pingedDocuments]
  · intro hid
    unfold componentWillReceiveProps
    cases hd : nextProps.document.directLine <;>
      simp [hid, pingCalls, pingedDocuments]
  · intro directLine
    unfold componentWillReceiveProps
    by_cases hid : thisProps.document.documentId = nextProps.document.documentId <;>
      cases hd : nextProps.document.directLine <;>
      cases directLine <;>
      simp [hid, pingCalls, pingedDocuments]
  · intro arg env outcomes
    obtain ⟨tail, htrace, hreq, -, -⟩ := startNewConversation_trace thisProps arg env outcomes
    obtain ⟨hdis, -, -, -, -, -⟩ := observations_of_requests tail hreq
    rw [htrace, dispatchedActions_append, hdis, List.append_nil,
      dispatchedActions_startNewConversationHead]
    simp [pingedDocuments]

/-- Witness for C11: switching from document `a` to document `b` pings `b`
once, with or without a transport on `b`; staying on `a` pings nothing. -/
theorem componentWillReceiveProps_pingCalls_witness :
    pingCalls (componentWillReceiveProps (sampleProps "a" none) (sampleProps "b" none))
        = ["b"] ∧
    pingCalls (componentWillReceiveProps (sampleProps "a" none) (liveProps "b" none))
        = ["b"] ∧
    pingCalls (componentWillReceiveProps (sampleProps "a" none) (liveProps "a" none)) = [] :=
  ⟨(componentWillReceiveProps_pingCalls (sampleProps "a" none) (sampleProps "b" none)).1
      (by decide),
    (componentWillReceiveProps_pingCalls (sampleProps "a" none) (liveProps "b" none)).1
      (by decide),
    (componentWillReceiveProps_pingCalls (sampleProps "a" none) (liveProps "a" none)).2.1 rfl⟩

end Emulator
